import Mathlib

/-!
Shallow embedding of `crates/kftray-portforward/src/core.rs`: the lifecycle
orchestration of port forwards (`start_port_forward`, `stop_port_forward`,
`stop_all_port_forward`, `deploy_and_forward_pod`) together with the pure
helpers (`render_json_template`, `parse_configs`).

External collaborators (the `PortForward` transport, the kube client, the
hosts-file writer, the persistent config and config-state stores, the file
system and clocks) are modelled as explicit environment records whose fields
give the outcome of each external call; the process-wide mutable state
(registry of supervised handles, set of aborted handles, persisted
config-state rows, logged pod deletions) is threaded explicitly as a
`SysState`.  Panics (`unwrap` / `expect` on `None`) are modelled by returning
`none` from the operation.  Strings are modelled as `List Char`.
-/

/-- The underscore separator used by composite registry keys. -/
def und : Char := '_'

/-- Newline used by `errors.join("\n")`. -/
def nl : Char := '\n'

/-- Shorthand: the character list of a string literal. -/
def str (s : String) : List Char := s.data

/-- Embedding of Rust `str::to_uppercase` restricted to the ASCII protocol
names that reach it in `core.rs`. -/
def toUpperChars (s : List Char) : List Char := s.map Char.toUpper

/-- Embedding of Rust `str::to_lowercase` restricted to the ASCII data that
reaches it in `core.rs`. -/
def toLowerChars (s : List Char) : List Char := s.map Char.toLower

/-- Embedding of Rust `str::starts_with` on strings. -/
def listStarts : List Char → List Char → Bool
  | [], _ => true
  | _ :: _, [] => false
  | p :: ps, c :: cs => decide (p = c) && listStarts ps cs

/-- Embedding of Rust `str::split(sep)` (yields `[""]` on the empty string,
exactly like the Rust iterator collected to a `Vec`). -/
def splitAll (sep : Char) : List Char → List (List Char)
  | [] => [[]]
  | c :: cs =>
    if c = sep then [] :: splitAll sep cs
    else
      match splitAll sep cs with
      | [] => [[c]]
      | p :: ps => (c :: p) :: ps

/-- Embedding of Rust `str::split_once(sep)`: split at the first occurrence
of `sep`, or `none` when `sep` does not occur. -/
def splitOnceAt (sep : Char) : List Char → Option (List Char × List Char)
  | [] => none
  | c :: cs =>
    if c = sep then some ([], cs)
    else (splitOnceAt sep cs).map (fun p => (c :: p.1, p.2))

/-- Embedding of Rust `str::trim` (the ASCII whitespace fragment, which is
all that the annotation grammar of `core.rs` exercises). -/
def rustTrim (s : List Char) : List Char :=
  ((s.dropWhile Char.isWhitespace).reverse.dropWhile Char.isWhitespace).reverse

/-- The decimal digit character for `d < 10`, as produced by Rust's integer
`Display` implementation. -/
def digChar (d : Nat) : Char := Char.ofNat (48 + d)

/-- Fuelled most-significant-first decimal rendering of a natural number
(the fuel makes the recursion structural, hence kernel-reducible). -/
def natCharsGo : Nat → Nat → List Char → List Char
  | 0, _, acc => acc
  | fuel + 1, n, acc =>
    if n < 10 then digChar n :: acc
    else natCharsGo fuel (n / 10) (digChar (n % 10) :: acc)

/-- Decimal rendering of a natural number, as Rust's `Display` for unsigned
integers produces it. -/
def natChars (n : Nat) : List Char := natCharsGo (n + 1) n []

/-- Embedding of Rust's `Display` for `i64` (`format!("{}", id)`). -/
def i64ToString (n : Int) : List Char :=
  if n < 0 then '-' :: natChars n.natAbs else natChars n.natAbs

/-- The numeric value of a decimal digit character, `none` otherwise. -/
def digitVal (c : Char) : Option Nat :=
  if 48 ≤ c.toNat ∧ c.toNat ≤ 57 then some (c.toNat - 48) else none

/-- Accumulating parse of a run of decimal digits. -/
def parseDigitsGo : List Char → Nat → Option Nat
  | [], acc => some acc
  | c :: cs, acc =>
    match digitVal c with
    | some d => parseDigitsGo cs (acc * 10 + d)
    | none => none

/-- Parse a non-empty run of decimal digits (no sign). -/
def parseDigits : List Char → Option Nat
  | [] => none
  | c :: cs =>
    match digitVal c with
    | some d => parseDigitsGo cs d
    | none => none

/-- Embedding of Rust `i64::from_str` (optional sign, decimal digits,
overflow outside the `i64` range is a parse error). -/
def parseI64 (s : List Char) : Option Int :=
  match s with
  | [] => none
  | c :: rest =>
    if c = '+' then
      (parseDigits rest).bind fun v =>
        if v ≤ 9223372036854775807 then some (v : Int) else none
    else if c = '-' then
      (parseDigits rest).bind fun v =>
        if v ≤ 9223372036854775808 then some (-(v : Int)) else none
    else
      (parseDigits (c :: rest)).bind fun v =>
        if v ≤ 9223372036854775807 then some ((v : Int)) else none

/-- Embedding of `str.parse::<i64>().unwrap_or_default()`. -/
def parseI64OrZero (s : List Char) : Int := (parseI64 s).getD 0

/-- Embedding of Rust `u16::from_str` (optional `+`, decimal digits,
value at most `65535`). -/
def parseU16 (s : List Char) : Option Nat :=
  match s with
  | [] => none
  | c :: rest =>
    if c = '+' then (parseDigits rest).bind fun v => if v ≤ 65535 then some v else none
    else (parseDigits (c :: rest)).bind fun v => if v ≤ 65535 then some v else none

/-- Embedding of Rust `i32::from_str`. -/
def parseI32 (s : List Char) : Option Int :=
  match s with
  | [] => none
  | c :: rest =>
    if c = '+' then
      (parseDigits rest).bind fun v =>
        if v ≤ 2147483647 then some (v : Int) else none
    else if c = '-' then
      (parseDigits rest).bind fun v =>
        if v ≤ 2147483648 then some (-(v : Int)) else none
    else
      (parseDigits (c :: rest)).bind fun v =>
        if v ≤ 2147483647 then some ((v : Int)) else none

/-- Embedding of Rust `as u16` truncation of an `i32` value (two's
complement reduction modulo `2 ^ 16`). -/
def asU16 (t : Int) : Nat := (Int.emod t 65536).toNat

/-! ### Lemmas about decimal rendering and parsing -/

theorem digChar_toNat {d : Nat} (hd : d < 10) : (digChar d).toNat = 48 + d := by
  interval_cases d <;> decide

theorem digChar_digit {d : Nat} (hd : d < 10) :
    48 ≤ (digChar d).toNat ∧ (digChar d).toNat ≤ 57 := by
  rw [digChar_toNat hd]; omega

theorem natCharsGo_fuel :
    ∀ f g n acc, n < f → n < g → natCharsGo f n acc = natCharsGo g n acc := by
  intro f
  induction f with
  | zero => intro g n acc hf; omega
  | succ f ih =>
    intro g n acc hf hg
    cases g with
    | zero => omega
    | succ g =>
      simp only [natCharsGo]
      by_cases h : n < 10
      · simp [h]
      · simp only [if_neg h]
        have hn10 : n / 10 < n := Nat.div_lt_self (by omega) (by omega)
        exact ih g (n / 10) _ (by omega) (by omega)

theorem natCharsGo_append :
    ∀ f n acc, n < f → natCharsGo f n acc = natCharsGo f n [] ++ acc := by
  intro f
  induction f with
  | zero => intro n acc hf; omega
  | succ f ih =>
    intro n acc hf
    simp only [natCharsGo]
    by_cases h : n < 10
    · simp [h]
    · simp only [if_neg h]
      have hn10 : n / 10 < n := Nat.div_lt_self (by omega) (by omega)
      rw [ih (n / 10) (digChar (n % 10) :: acc) (by omega),
          ih (n / 10) [digChar (n % 10)] (by omega)]
      simp

theorem natCharsGo_digits :
    ∀ f n, n < f → ∀ c ∈ natCharsGo f n [], 48 ≤ c.toNat ∧ c.toNat ≤ 57 := by
  intro f
  induction f with
  | zero => intro n hf; omega
  | succ f ih =>
    intro n hf c hc
    simp only [natCharsGo] at hc
    by_cases h : n < 10
    · simp [h] at hc
      subst hc; exact digChar_digit h
    · simp only [if_neg h] at hc
      have hn10 : n / 10 < n := Nat.div_lt_self (by omega) (by omega)
      rw [natCharsGo_append f (n / 10) _ (by omega)] at hc
      rcases List.mem_append.mp hc with h1 | h1
      · exact ih (n / 10) (by omega) c h1
      · simp at h1
        subst h1
        exact digChar_digit (Nat.mod_lt n (by omega))

theorem natCharsGo_ne_nil : ∀ f n, n < f → natCharsGo f n [] ≠ [] := by
  intro f
  induction f with
  | zero => intro n hf; omega
  | succ f ih =>
    intro n hf
    simp only [natCharsGo]
    by_cases h : n < 10
    · simp [h]
    · simp only [if_neg h]
      have hn10 : n / 10 < n := Nat.div_lt_self (by omega) (by omega)
      rw [natCharsGo_append f (n / 10) _ (by omega)]
      simp

/-- The decimal value of a digit list. -/
def charsVal (cs : List Char) : Nat :=
  cs.foldl (fun a c => a * 10 + (c.toNat - 48)) 0

theorem charsVal_natCharsGo : ∀ f n, n < f → charsVal (natCharsGo f n []) = n := by
  intro f
  induction f with
  | zero => intro n hf; omega
  | succ f ih =>
    intro n hf
    simp only [natCharsGo]
    by_cases h : n < 10
    · simp only [if_pos h, charsVal, List.foldl]
      rw [digChar_toNat h]; omega
    · simp only [if_neg h]
      have hn10 : n / 10 < n := Nat.div_lt_self (by omega) (by omega)
      rw [natCharsGo_append f (n / 10) _ (by omega)]
      have hv := ih (n / 10) (by omega)
      simp only [charsVal] at hv ⊢
      rw [List.foldl_append, hv]
      simp only [List.foldl]
      rw [digChar_toNat (Nat.mod_lt n (by omega))]
      omega

theorem natChars_digits {n : Nat} : ∀ c ∈ natChars n, 48 ≤ c.toNat ∧ c.toNat ≤ 57 :=
  natCharsGo_digits (n + 1) n (by omega)

theorem natChars_ne_nil {n : Nat} : natChars n ≠ [] :=
  natCharsGo_ne_nil (n + 1) n (by omega)

theorem charsVal_natChars {n : Nat} : charsVal (natChars n) = n :=
  charsVal_natCharsGo (n + 1) n (by omega)

theorem parseDigitsGo_eq :
    ∀ cs a, (∀ c ∈ cs, 48 ≤ c.toNat ∧ c.toNat ≤ 57) →
      parseDigitsGo cs a = some (cs.foldl (fun x c => x * 10 + (c.toNat - 48)) a) := by
  intro cs
  induction cs with
  | nil => intro a _; rfl
  | cons c cs ih =>
    intro a h
    have hc := h c (by simp)
    simp only [parseDigitsGo, digitVal, if_pos hc]
    rw [ih (a * 10 + (c.toNat - 48)) (fun x hx => h x (by simp [hx]))]
    rfl

theorem parseDigits_of_digits {cs : List Char} (hne : cs ≠ [])
    (h : ∀ c ∈ cs, 48 ≤ c.toNat ∧ c.toNat ≤ 57) :
    parseDigits cs = some (charsVal cs) := by
  cases cs with
  | nil => exact absurd rfl hne
  | cons c cs =>
    have hc := h c (by simp)
    simp only [parseDigits, digitVal, if_pos hc]
    rw [parseDigitsGo_eq cs (c.toNat - 48) (fun x hx => h x (by simp [hx]))]
    simp [charsVal]

theorem parseDigits_natChars {n : Nat} : parseDigits (natChars n) = some n := by
  rw [parseDigits_of_digits natChars_ne_nil natChars_digits, charsVal_natChars]

theorem parseI64_i64ToString {n : Int}
    (h0 : -(2 ^ 63) ≤ n) (h1 : n < 2 ^ 63) :
    parseI64 (i64ToString n) = some n := by
  by_cases hn : n < 0
  · have hle : n.natAbs ≤ 9223372036854775808 := by omega
    have hval : -((n.natAbs : Nat) : Int) = n := by omega
    simp only [i64ToString, if_pos hn, parseI64, reduceIte, parseDigits_natChars,
      Option.bind_eq_bind, Option.some_bind, if_pos hle, hval]
    rw [if_neg (show ¬ ('-' : Char) = '+' by decide)]
  · simp only [i64ToString, if_neg hn]
    obtain ⟨c, cs, hcc⟩ := List.exists_cons_of_ne_nil (natChars_ne_nil (n := n.natAbs))
    have hcmem : c ∈ natChars n.natAbs := by rw [hcc]; simp
    have hdig := natChars_digits (n := n.natAbs) c hcmem
    rw [hcc]
    simp only [parseI64]
    have hplus : ¬ c = '+' := by
      intro h; rw [h] at hdig; simp at hdig
    have hminus : ¬ c = '-' := by
      intro h; rw [h] at hdig; simp at hdig
    rw [if_neg hplus, if_neg hminus, ← hcc, parseDigits_natChars]
    have hle : n.natAbs ≤ 9223372036854775807 := by omega
    simp only [Option.bind_eq_bind, Option.some_bind, if_pos hle]
    congr 1
    omega

theorem parseI64OrZero_round {n : Int}
    (h0 : -(2 ^ 63) ≤ n) (h1 : n < 2 ^ 63) :
    parseI64OrZero (i64ToString n) = n := by
  simp [parseI64OrZero, parseI64_i64ToString h0 h1]

theorem i64ToString_inj {a b : Int}
    (ha0 : -(2 ^ 63) ≤ a) (ha1 : a < 2 ^ 63)
    (hb0 : -(2 ^ 63) ≤ b) (hb1 : b < 2 ^ 63)
    (h : i64ToString a = i64ToString b) : a = b := by
  have := parseI64_i64ToString ha0 ha1
  rw [h, parseI64_i64ToString hb0 hb1] at this
  exact (Option.some_inj.mp this).symm

theorem i64ToString_noUnd {n : Int} : ∀ c ∈ i64ToString n, c ≠ und := by
  intro c hc
  simp only [i64ToString] at hc
  by_cases hn : n < 0
  · rw [if_pos hn] at hc
    rcases List.mem_cons.mp hc with h | h
    · subst h; decide
    · have := natChars_digits (n := n.natAbs) c h
      intro he; rw [he] at this; simp [und] at this
  · rw [if_neg hn] at hc
    have := natChars_digits (n := n.natAbs) c hc
    intro he; rw [he] at this; simp [und] at this

/-! ### Lemmas about prefixes and underscore splitting -/

theorem listStarts_iff : ∀ p s : List Char, listStarts p s = true ↔ ∃ t, s = p ++ t := by
  intro p
  induction p with
  | nil => intro s; simp [listStarts]
  | cons x xs ih =>
    intro s
    cases s with
    | nil => simp [listStarts]
    | cons c cs =>
      simp only [listStarts, Bool.and_eq_true, decide_eq_true_eq, ih cs]
      constructor
      · rintro ⟨rfl, t, rfl⟩; exact ⟨t, rfl⟩
      · rintro ⟨t, ht⟩
        injection ht with h1 h2
        exact ⟨h1.symm, t, h2⟩

theorem splitOnceAt_append {xs : List Char} (h : ∀ c ∈ xs, c ≠ und) :
    ∀ t, splitOnceAt und (xs ++ und :: t) = some (xs, t) := by
  induction xs with
  | nil => intro t; simp [splitOnceAt]
  | cons x xs ih =>
    intro t
    have hx : ¬ x = und := h x (by simp)
    simp only [List.cons_append, splitOnceAt, if_neg hx, List.append_eq,
      ih (fun c hc => h c (by simp [hc])) t]
    rfl

theorem und_append_inj {xs ys s t : List Char}
    (hx : ∀ c ∈ xs, c ≠ und) (hy : ∀ c ∈ ys, c ≠ und)
    (h : xs ++ und :: s = ys ++ und :: t) : xs = ys ∧ s = t := by
  have h1 := splitOnceAt_append hx s
  rw [h, splitOnceAt_append hy t] at h1
  injection h1 with h1
  exact ⟨(congrArg Prod.fst h1).symm, (congrArg Prod.snd h1).symm⟩

theorem splitAll_noSep {t : List Char} (h : ∀ c ∈ t, c ≠ und) :
    splitAll und t = [t] := by
  induction t with
  | nil => rfl
  | cons c cs ih =>
    have hc : ¬ c = und := h c (by simp)
    simp only [splitAll, if_neg hc, ih (fun x hx => h x (by simp [hx]))]

theorem splitAll_append {xs : List Char} (h : ∀ c ∈ xs, c ≠ und) (t : List Char) :
    splitAll und (xs ++ und :: t) = xs :: splitAll und t := by
  induction xs with
  | nil => simp [splitAll]
  | cons x xs ih =>
    have hx : ¬ x = und := h x (by simp)
    have := ih (fun c hc => h c (by simp [hc]))
    simp only [List.cons_append, splitAll, if_neg hx, List.append_eq, this]

/-! ### Data model

`Config`, `CustomResponse` and the config-state rows live in the
`kftray-commons` crate, which is not under `src/`. -/

/-- Modelled from the spec: the configuration record of §3 (DATA MODEL) of
the specification, as consumed by `core.rs`; the `kftray-commons`
`config_model::Config` itself is not under `src/`.  `Default` gives `None`
for every optional field and the empty string otherwise. -/
structure Config where
  id : Option Int := none
  context : List Char := []
  kubeconfig : Option (List Char) := none
  namespace' : List Char := []
  service : Option (List Char) := none
  target : Option (List Char) := none
  remote_address : Option (List Char) := none
  local_port : Option Nat := none
  remote_port : Option Nat := none
  protocol : List Char := []
  local_address : Option (List Char) := none
  alias' : Option (List Char) := none
  domain_enabled : Option Bool := none
  workload_type : Option (List Char) := none
deriving Repr, DecidableEq

/-- Modelled from the spec: the per-configuration `CustomResponse` record of
§3 (the `kftray-commons` `response::CustomResponse` is not under `src/`). -/
structure CustomResponse where
  id : Option Int
  service : List Char
  namespace' : List Char
  local_port : Nat
  remote_port : Nat
  context : List Char
  protocol : List Char
  stdout : List Char
  stderr : List Char
  status : Nat
deriving Repr, DecidableEq

/-- The process-wide mutable state threaded through the orchestrator:

* `registry` — the `CHILD_PROCESSES` map (composite key to task handle;
  handles are numbered by an allocation counter). Modelled from the spec
  (§4.1): `CHILD_PROCESSES` lives in `port_forward.rs`, not under `src/`.
* `aborted` — the set of handles on which `abort()` has been called.
* `store` — the persisted config-state rows.  Modelled from the spec (§6):
  `update_config_state(config_id, is_running)` is an upsert keeping at most
  one row per `config_id` (`core.rs` only logs a failed store write, so the
  store's net effect is the upsert itself).
* `nextHandle` — allocation counter for fresh task handles.
* `deletions` — log of cluster pod deletions `(pod name, grace period)`. -/
structure SysState where
  registry : List (List Char × Nat)
  aborted : List Nat
  store : List (Int × Bool)
  nextHandle : Nat
  deletions : List (List Char × Option Nat)
deriving Repr, DecidableEq

/-- `HashMap::insert`: last-writer-wins overwrite of a registry key. -/
def regSet (k : List Char) (h : Nat) (reg : List (List Char × Nat)) :
    List (List Char × Nat) :=
  (k, h) :: reg.filter (fun kv => !decide (kv.1 = k))

/-- `HashMap::remove`: the removed handle (if any) and the remaining map. -/
def regRemove (k : List Char) (reg : List (List Char × Nat)) :
    Option Nat × List (List Char × Nat) :=
  ((reg.find? (fun kv => decide (kv.1 = k))).map Prod.snd,
   reg.filter (fun kv => !decide (kv.1 = k)))

/-- `HashMap::get` on the registry. -/
def regLookup (reg : List (List Char × Nat)) (k : List Char) : Option Nat :=
  (reg.find? (fun kv => decide (kv.1 = k))).map Prod.snd

/-- Modelled from the spec: the config-state store's `update` contract (§6)
is an upsert keeping at most one row per `config_id`. -/
def storeSet (i : Int) (b : Bool) (s : List (Int × Bool)) : List (Int × Bool) :=
  (i, b) :: s.filter (fun r => !decide (r.1 = i))

/-- Lookup of a persisted `is_running` row. -/
def storeLookup (s : List (Int × Bool)) (i : Int) : Option Bool :=
  (s.find? (fun r => decide (r.1 = i))).map Prod.snd

/-! ### `start_port_forward` -/

/-- Outcomes of the external calls made by one `start_port_forward` run,
indexed by the position of the config in the input list:

* `newRes` — result of `PortForward::new`,
* `fwdRes` — result of `port_forward_tcp` / `port_forward_udp`
  (the actual bound local port on success; the task handle is allocated
  freshly from `SysState.nextHandle`),
* `ipParses` — whether `local_address.parse::<IpAddr>()` succeeds
  (the `std` parser is external to the repository),
* `hostsWrite` — result of `HostsBuilder::write` for this iteration. -/
structure StartEnv where
  newRes : Nat → Except (List Char) Unit
  fwdRes : Nat → Except (List Char) Nat
  ipParses : List Char → Bool
  hostsWrite : Nat → Except (List Char) Unit

/-- The `"pod label"` / `"service"` noun used by the log/error messages. -/
def kindStr (c : Config) : List Char :=
  if c.workload_type = some (str "pod") then str "pod label" else str "service"

/-- `format!("Failed to create PortForward for {} {}: {}", …)`. -/
def msgNewFail (c : Config) (e : List Char) : List Char :=
  str "Failed to create PortForward for " ++ kindStr c ++ [' '] ++
    (c.service.getD []) ++ str ": " ++ e

/-- `format!("Failed to start {} port forwarding for {} {}: {}", …)`. -/
def msgFwdFail (protocol : List Char) (c : Config) (e : List Char) : List Char :=
  str "Failed to start " ++ toUpperChars protocol ++ str " port forwarding for " ++
    kindStr c ++ [' '] ++ (c.service.getD []) ++ str ": " ++ e

/-- `format!("Failed to write to the hostfile for {}: {}", …)`. -/
def msgHostsFail (sname e : List Char) : List Char :=
  str "Failed to write to the hostfile for " ++ sname ++ str ": " ++ e

/-- `format!("Invalid IP address format: {}", …)`. -/
def msgBadIp (la : List Char) : List Char :=
  str "Invalid IP address format: " ++ la

/-- The composite registry key `format!("{}_{}", id, service)` (with the
`unwrap_or_default` readings used by the hypotheses of the theorems). -/
def keyFor (c : Config) : List Char :=
  i64ToString (c.id.getD 0) ++ und :: (c.service.getD [])

/-- The success response pushed by `start_port_forward`. -/
def mkOkResp (c : Config) (protocol sname : List Char) (actualPort : Nat) :
    CustomResponse :=
  { id := c.id
    service := sname
    namespace' := c.namespace'
    local_port := actualPort
    remote_port := c.remote_port.getD 0
    context := c.context
    protocol := c.protocol
    stdout := toUpperChars protocol ++ str " forwarding from 127.0.0.1:" ++
      natChars actualPort ++ str " -> " ++ natChars (c.remote_port.getD 0) ++
      str ":" ++ sname
    stderr := []
    status := 0 }

/-- One iteration of the `for config in configs` loop of
`start_port_forward` (lines 66–248 of `core.rs`).  Returns the new state
together with the responses, error strings and `child_handles` keys this
iteration appends; `none` models a panic (`config.id.unwrap()` /
`config.service.clone().unwrap()` on `None`). -/
def startStep (env : StartEnv) (protocol : List Char) (c : Config) (i : Nat)
    (st : SysState) :
    Option (SysState × List CustomResponse × List (List Char) × List (List Char)) :=
  match env.newRes i with
  | .error e => some (st, [], [msgNewFail c e], [])
  | .ok _ =>
    let fwd : Except (List Char) Nat :=
      if protocol = str "udp" then env.fwdRes i
      else if protocol = str "tcp" then env.fwdRes i
      else .error (str "Unsupported protocol")
    match fwd with
    | .error e => some (st, [], [msgFwdFail protocol c e], [])
    | .ok actualPort =>
      match c.id with
      | none => none
      | some cid =>
        let handleKey := i64ToString cid ++ und :: (c.service.getD [])
        let h := st.nextHandle
        let st1 : SysState :=
          { st with registry := regSet handleKey h st.registry,
                    nextHandle := st.nextHandle + 1 }
        let finish :
            SysState → List (List Char) →
              Option (SysState × List CustomResponse × List (List Char) ×
                List (List Char)) := fun st2 es =>
          match c.service with
          | none => none
          | some sname =>
            some ({ st2 with store := storeSet cid true st2.store },
              [mkOkResp c protocol sname actualPort], es, [handleKey])
        if c.domain_enabled.getD false then
          match c.service, c.local_address with
          | some sname, some la =>
            if env.ipParses la then
              match env.hostsWrite i with
              | .error e =>
                let rem := regRemove handleKey st1.registry
                some ({ st1 with
                          registry := rem.2,
                          aborted := st1.aborted ++
                            (match rem.1 with | some h2 => [h2] | none => []) },
                  [], [msgHostsFail sname e], [handleKey])
              | .ok _ => finish st1 []
            else finish st1 [msgBadIp la]
          | _, _ => finish st1 []
        else finish st1 []

/-- The whole `for` loop of `start_port_forward`, accumulating responses,
errors and `child_handles` in input order. -/
def startLoop (env : StartEnv) (protocol : List Char) :
    List Config → Nat → SysState →
    Option (SysState × List CustomResponse × List (List Char) × List (List Char))
  | [], _, st => some (st, [], [], [])
  | c :: rest, i, st =>
    match startStep env protocol c i st with
    | none => none
    | some (st1, rs, es, ks) =>
      match startLoop env protocol rest (i + 1) st1 with
      | none => none
      | some (st2, rs2, es2, ks2) => some (st2, rs ++ rs2, es ++ es2, ks ++ ks2)

/-- The compensating rollback of lines 250–255: remove every key in
`child_handles` from the registry and abort the handle found there. -/
def rollbackKeys : List (List Char) → SysState → SysState
  | [], st => st
  | k :: ks, st =>
    let rem := regRemove k st.registry
    rollbackKeys ks
      { st with registry := rem.2,
                aborted := st.aborted ++
                  (match rem.1 with | some h => [h] | none => []) }

/-- Embedding of `start_port_forward(configs, protocol, http_log_state)`
(the HTTP log state is only passed through to the transport and has no
observable effect here).  Returns `none` on panic; otherwise the
`Result<Vec<CustomResponse>, String>`, the final state, and the accumulated
error list (exposed so that the error-joining behaviour is statable). -/
def start_port_forward (env : StartEnv) (configs : List Config)
    (protocol : List Char) (st : SysState) :
    Option (Except (List Char) (List CustomResponse) × SysState × List (List Char)) :=
  (startLoop env protocol configs 0 st).map fun r =>
    if r.2.2.1 = [] then (.ok r.2.1, r.1, r.2.2.1)
    else (.error (List.intercalate [nl] r.2.2.1), rollbackKeys r.2.2.2 r.1, r.2.2.1)

/-! ### `stop_port_forward` -/

/-- Outcomes of the external calls of one `stop_port_forward` run:
`configsRes` is the result of `get_configs()`, `hostsWrite` the result of
the (empty, hence removing) `HostsBuilder::write`. -/
structure StopOneEnv where
  configsRes : Except (List Char) (List Config)
  hostsWrite : Except (List Char) Unit

/-- The success response of `stop_port_forward` (its `id` field is `None`
in the source). -/
def stopOneOkResp (svc : List Char) : CustomResponse :=
  { id := none, service := svc, namespace' := [], local_port := 0,
    remote_port := 0, context := [], protocol := [],
    stdout := str "Service port forwarding has been stopped", stderr := [],
    status := 0 }

/-- Embedding of `stop_port_forward(config_id)` (lines 507–620 of
`core.rs`).  The broadcast cancel notification has no observable effect on
the modelled state and is not tracked. -/
def stop_port_forward (env : StopOneEnv) (config_id : List Char) (st : SysState) :
    Except (List Char) CustomResponse × SysState :=
  match st.registry.find? (fun kv => listStarts (config_id ++ [und]) kv.1) with
  | some kv =>
    let k := kv.1
    let rem := regRemove k st.registry
    let st1 : SysState :=
      { st with registry := rem.2,
                aborted := st.aborted ++
                  (match rem.1 with | some h => [h] | none => []) }
    let halves := (splitOnceAt und k).getD ([], [])
    let parsed := parseI64OrZero halves.1
    match env.configsRes with
    | .ok configs =>
      let st2 : SysState := { st1 with store := storeSet parsed false st1.store }
      match configs.find? (fun c => decide (c.id = some parsed)) with
      | some cfg =>
        if cfg.domain_enabled.getD false then
          match env.hostsWrite with
          | .error e => (.error e, st2)
          | .ok _ => (.ok (stopOneOkResp halves.2), st2)
        else (.ok (stopOneOkResp halves.2), st2)
      | none => (.ok (stopOneOkResp halves.2), st2)
    | .error e =>
      (.error (str "Failed to retrieve configs: " ++ e),
       { st1 with store := storeSet (parseI64OrZero config_id) false st1.store })
  | none =>
    (.error (str "No port forwarding process found for config_id '" ++
       config_id ++ [Char.ofNat 39]),
     { st with store := storeSet (parseI64OrZero config_id) false st.store })

/-! ### `stop_all_port_forward` -/

/-- Outcomes of the external calls of one `stop_all_port_forward` run:

* `statesErr` — `some e` when `get_configs_state()` fails (on success the
  read returns the persisted rows of `SysState.store`),
* `configsRes` — the result of `get_configs()`,
* `hostsWrite` — result of the removing `HostsBuilder::write`, keyed by the
  hosts-block marker comment,
* `clientRes` / `podList` — kube client construction and pod listing for
  the proxy-pod cleanup phase, keyed by config id,
* `username` — `whoami::username()`. -/
structure StopAllEnv where
  statesErr : Option (List Char)
  configsRes : Except (List Char) (List Config)
  hostsWrite : List Char → Except (List Char) Unit
  clientRes : Int → Except (List Char) (Option Unit)
  podList : Int → Option (List (List Char × Option (List Char)))
  username : List Char

/-- The status-1 response produced for a malformed composite key. -/
def invalidKeyResp : CustomResponse :=
  { id := none, service := [], namespace' := [], local_port := 0,
    remote_port := 0, context := [], protocol := [], stdout := [],
    stderr := str "Invalid composite key format", status := 1 }

/-- The status-1 response produced when the removing hosts-file write of
`stop_all_port_forward` fails. -/
def stopAllErrResp (parsed : Int) (svc e : List Char) : CustomResponse :=
  { id := some parsed, service := svc, namespace' := [], local_port := 0,
    remote_port := 0, context := [], protocol := [], stdout := [],
    stderr := e, status := 1 }

/-- The status-0 response of one aborted handle in `stop_all_port_forward`. -/
def stopAllOkResp (parsed : Int) (svc : List Char) : CustomResponse :=
  { id := some parsed, service := svc, namespace' := [], local_port := 0,
    remote_port := 0, context := [], protocol := [],
    stdout := str "Service port forwarding has been stopped", stderr := [],
    status := 1 - 1 }

/-- Per-drained-key processing of `stop_all_port_forward` (the async block
of lines 317–386): the response, and the handle to abort (`none` when the
path returns early without aborting). -/
def stopAllKeyStep (env : StopAllEnv) (configs : List Config)
    (kv : List Char × Nat) : CustomResponse × Option Nat :=
  match splitAll und kv.1 with
  | [idStr, svc] =>
    let parsed := parseI64OrZero idStr
    match configs.reverse.find? (fun c => decide (c.id = some parsed)) with
    | some cfg =>
      if cfg.domain_enabled.getD false then
        match env.hostsWrite (str "kftray custom host for " ++ svc ++
            str " - " ++ idStr) with
        | .error e => (stopAllErrResp parsed svc e, none)
        | .ok _ => (stopAllOkResp parsed svc, some kv.2)
      else (stopAllOkResp parsed svc, some kv.2)
    | none => (stopAllOkResp parsed svc, some kv.2)
  | _ => (invalidKeyResp, none)

/-- The proxy-pod cleanup step of `stop_all_port_forward` (lines 394–473)
for one config: when the config is in the running set, is `udp` or `proxy`,
and carries a kubeconfig, list its labelled pods and log a grace-period-0
deletion of every pod whose name starts with `kftray-forward-<user>`. -/
def stopAllPodStep (env : StopAllEnv) (running : List Int) (acc : SysState)
    (c : Config) : SysState :=
  if running.any (fun j => decide (j = c.id.getD 0)) &&
      (decide (c.protocol = str "udp") ||
       decide (c.workload_type = some (str "proxy"))) then
    match c.kubeconfig with
    | none => acc
    | some _ =>
      match env.clientRes (c.id.getD 0) with
      | .ok (some _) =>
        match env.podList (c.id.getD 0) with
        | some pods =>
          { acc with deletions := acc.deletions ++
              pods.filterMap (fun p =>
                if listStarts (str "kftray-forward-" ++ env.username) p.1
                then some (p.1, some 0) else none) }
        | none => acc
      | _ => acc
  else acc

/-- The final reconciliation step of `stop_all_port_forward`
(lines 475–497): upsert `is_running = false` for one config. -/
def stopAllStoreStep (acc : SysState) (c : Config) : SysState :=
  { acc with store := storeSet (c.id.getD 0) false acc.store }

/-- Embedding of `stop_all_port_forward()` (lines 269–505 of `core.rs`).
The concurrent per-handle fan-out is linearised in registry order (the
source collects `FuturesUnordered` results in no guaranteed order, and no
per-key effect depends on another key). -/
def stop_all_port_forward (env : StopAllEnv) (st : SysState) :
    Except (List Char) (List CustomResponse) × SysState :=
  let drained := st.registry
  let st0 : SysState := { st with registry := [] }
  match env.statesErr with
  | some e => (.error (str "Failed to retrieve config states: " ++ e), st0)
  | none =>
    let running := (st0.store.filter (fun r => r.2)).map (fun r => r.1)
    match env.configsRes with
    | .error e => (.error (str "Failed to retrieve configs: " ++ e), st0)
    | .ok configs =>
      let results := drained.map (stopAllKeyStep env configs)
      let st1 : SysState :=
        { st0 with aborted := st0.aborted ++ results.filterMap Prod.snd }
      let st2 : SysState := configs.foldl (stopAllPodStep env running) st1
      let st3 : SysState := configs.foldl stopAllStoreStep st2
      (.ok (results.map Prod.fst), st3)

/-! ### `deploy_and_forward_pod` -/

/-- Embedding of `render_json_template`: literal `{key}` substitution, each
key replaced everywhere in the template (Rust `str::replace`); the source
iterates a `HashMap` in unspecified order, modelled here in the fixed
insertion order of the value list. -/
def replaceAllGo : Nat → List Char → List Char → List Char → List Char
  | 0, s, _, _ => s
  | fuel + 1, s, pat, rep =>
    match s with
    | [] => []
    | c :: cs =>
      if listStarts pat s then rep ++ replaceAllGo fuel (s.drop pat.length) pat rep
      else c :: replaceAllGo fuel cs pat rep

/-- Embedding of Rust `str::replace` (for the non-empty patterns used by
the manifest templating). -/
def replaceAll (s pat rep : List Char) : List Char :=
  replaceAllGo (s.length + 1) s pat rep

/-- Embedding of `render_json_template(template, values)`. -/
def render_json_template (template : List Char)
    (values : List (List Char × List Char)) : List Char :=
  values.foldl
    (fun acc p => replaceAll acc (Char.ofNat 123 :: p.1 ++ [Char.ofNat 125]) p.2)
    template

/-- Outcomes of the external calls of one `deploy_and_forward_pod` run,
indexed by the position of the config in the input list:

* `clientRes` — kube client construction (`ok none` models
  `Ok(None)`, i.e. "Client not created"),
* `timestamp` / `randStr` / `username` — clock, RNG and `whoami` inputs of
  the hashed pod name,
* `manifestRes` — combined result of manifest-path lookup, file open and
  read (all three `map_err` to strings in the source),
* `podParse` — result of `serde_json::from_str::<Pod>` on the rendered
  manifest,
* `createRes` — result of `pods.create`,
* `waitRes` — result of the `is_pod_running` readiness wait,
* `startEnvAt` — the `StartEnv` consumed by the nested
  `start_port_forward` call. -/
structure DeployEnv where
  clientRes : Nat → Except (List Char) (Option Unit)
  timestamp : Nat → Nat
  randStr : Nat → List Char
  username : List Char
  manifestRes : Nat → Except (List Char) (List Char)
  podParse : List Char → Except (List Char) Unit
  createRes : Nat → Except (List Char) Unit
  waitRes : Nat → Except (List Char) Unit
  startEnvAt : Nat → StartEnv

/-- The helper-pod name
`format!("kftray-forward-{}-{}-{}-{}", clean_username, protocol, timestamp,
random_string).to_lowercase()`. -/
def hashedName (env : DeployEnv) (c : Config) (i : Nat) : List Char :=
  toLowerChars
    (str "kftray-forward-" ++
      ((toLowerChars env.username).filter Char.isAlphanum) ++ ['-'] ++
      toLowerChars c.protocol ++ ['-'] ++ natChars (env.timestamp i) ++ ['-'] ++
      env.randStr i)

/-- The `{key}` substitution map built by `deploy_and_forward_pod` (requires
`service`, the defaulted `remote_address` and `remote_port` to be present;
their absence panics in the caller). -/
def deployValues (env : DeployEnv) (c : Config) (i : Nat)
    (sname raddr : List Char) (rp : Nat) : List (List Char × List Char) :=
  [(str "hashed_name", hashedName env c i),
   (str "config_id",
     match c.id with | none => str "default" | some n => i64ToString n),
   (str "service_name", sname),
   (str "remote_address", raddr),
   (str "remote_port", natChars rp),
   (str "local_port", natChars rp),
   (str "protocol", toLowerChars c.protocol)]

/-- Embedding of `deploy_and_forward_pod(configs, http_log_state)`
(lines 631–764 of `core.rs`).  `none` models a panic
(`config.service.as_ref().unwrap()` or `config.remote_port.expect("None")`
on `None`). -/
def deploy_and_forward_pod (env : DeployEnv) :
    List Config → Nat → SysState →
    Option (Except (List Char) (List CustomResponse) × SysState)
  | [], _, st => some (.ok [], st)
  | c :: rest, i, st =>
    match env.clientRes i with
    | .error e => some (.error e, st)
    | .ok none => some (.error (str "Client not created"), st)
    | .ok (some _) =>
      let protocol := toLowerChars c.protocol
      let hn := hashedName env c i
      let raddrOpt :=
        if (c.remote_address.getD []).isEmpty then c.service else c.remote_address
      match c.service with
      | none => none
      | some sname =>
        match c.remote_port with
        | none => none
        | some rp =>
          match env.manifestRes i with
          | .error e => some (.error e, st)
          | .ok content =>
            match env.podParse
                (render_json_template content
                  (deployValues env c i sname (raddrOpt.getD []) rp)) with
            | .error e => some (.error e, st)
            | .ok _ =>
              match env.createRes i with
              | .error e => some (.error e, st)
              | .ok _ =>
                match env.waitRes i with
                | .error e =>
                  some (.error e,
                    { st with deletions := st.deletions ++ [(hn, some 0)] })
                | .ok _ =>
                  let c2 : Config :=
                    { c with service := some hn, remote_address := raddrOpt }
                  if protocol = str "udp" ∨ protocol = str "tcp" then
                    match start_port_forward (env.startEnvAt i) [c2] protocol st with
                    | none => none
                    | some (.ok rs, st2, _) =>
                      match rs.getLast? with
                      | none =>
                        some (.error
                          (str "No response received from port forwarding"), st2)
                      | some r =>
                        match deploy_and_forward_pod env rest (i + 1) st2 with
                        | none => none
                        | some (.ok rs2, st3) => some (.ok (r :: rs2), st3)
                        | some (.error e, st3) => some (.error e, st3)
                    | some (.error e, st2, _) =>
                      some (.error (str "Failed to start port forwarding " ++ e),
                        { st2 with deletions := st2.deletions ++ [(hn, none)] })
                  else
                    some (.error (str "Unsupported proxy type"),
                      { st with deletions := st.deletions ++ [(hn, none)] })

/-! ### `parse_configs` (service-annotation parsing) -/

/-- Embedding of `parse_configs(configs_str, context, namespace,
service_name, ports, kubeconfig)` (lines 923–957 of `core.rs`). -/
def parse_configs (configs_str context namespace'' service_name : List Char)
    (ports : List (List Char × Int)) (kubeconfig : Option (List Char)) :
    List Config :=
  (splitAll ',' configs_str).filterMap fun config_str =>
    match splitAll '-' (rustTrim config_str) with
    | [a, lp, tp] =>
      match parseU16 lp with
      | none => none
      | some local_port =>
        let target_port : Option Int :=
          match parseI32 tp with
          | some v => some v
          | none => (ports.find? (fun p => decide (p.1 = tp))).map Prod.snd
        match target_port with
        | none => none
        | some t =>
          some { id := none
                 context := context
                 kubeconfig := kubeconfig
                 namespace' := namespace''
                 service := some service_name
                 alias' := some a
                 local_port := some local_port
                 remote_port := some (asU16 t)
                 protocol := str "tcp"
                 workload_type := some (str "service") }
    | _ => none

/-! ### Claim C9: annotation parsing -/

/-- The first config produced by the C9 example annotation. -/
def c9web : Config :=
  { id := none
    context := str "ctx"
    kubeconfig := none
    namespace' := str "ns"
    service := some (str "svc")
    alias' := some (str "web")
    local_port := some 8080
    remote_port := some 80
    protocol := str "tcp"
    workload_type := some (str "service") }

/-- The second config produced by the C9 example annotation (named target
port resolved through the service port map). -/
def c9admin : Config :=
  { c9web with alias' := some (str "admin"), local_port := some 9090,
               remote_port := some 9443 }

/-- Claim C9: `parse_configs` splits the annotation on commas into
`alias-localPort-targetPort` entries, resolving a named target port through
the service's port map; the example annotation
`"web-8080-80,admin-9090-adminport"` with port map `{adminport: 9443}`
yields exactly `(web, 8080, 80)` and `(admin, 9090, 9443)`, and entries not
matching the grammar (or naming an unknown port) are silently skipped. -/
theorem claim_c9 :
    parse_configs (str "web-8080-80,admin-9090-adminport") (str "ctx")
        (str "ns") (str "svc") [(str "adminport", 9443)] none =
      [c9web, c9admin] ∧
    parse_configs (str "bad") (str "ctx") (str "ns") (str "svc")
        [(str "adminport", 9443)] none = [] ∧
    parse_configs (str "web-8080-noport,admin-9090-adminport") (str "ctx")
        (str "ns") (str "svc") [(str "adminport", 9443)] none = [c9admin] := by
  refine ⟨by decide, by decide, by decide⟩

/-! ### Claim C10: panics on absent optional fields -/

/-- Environment for the C10 panic runs: every external call succeeds. -/
def c10env : StartEnv :=
  ⟨fun _ => .ok (), fun _ => .ok 8080, fun _ => true, fun _ => .ok ()⟩

/-- Deploy environment for the C10 panic runs: client creation succeeds. -/
def c10denv : DeployEnv :=
  ⟨fun _ => .ok (some ()), fun _ => 111, fun _ => str "abc123", str "user",
   fun _ => .ok (str "tmpl"), fun _ => .ok (), fun _ => .ok (),
   fun _ => .ok (), fun _ => c10env⟩

/-- The empty initial state. -/
def c10st : SysState := ⟨[], [], [], 0, []⟩

/-- A config with no `id` whose transport start succeeds. -/
def c10cfgNoId : Config := { service := some (str "s"), protocol := str "tcp" }

/-- A config with no `service` whose transport start succeeds. -/
def c10cfgNoSvc : Config := { id := some 1, protocol := str "tcp" }

/-- A config with no `service` handed to `deploy_and_forward_pod`. -/
def c10cfgDepNoSvc : Config :=
  { id := some 2, remote_port := some 5432, protocol := str "tcp" }

/-- A config with no `remote_port` handed to `deploy_and_forward_pod`. -/
def c10cfgDepNoPort : Config :=
  { id := some 2, service := some (str "db"), protocol := str "tcp" }

/-- Claim C10: the entry points are not total over configs with absent
optional fields — with every external call succeeding,
`start_port_forward` panics (modelled as `none`) on a config with
`id = None` or `service = None` whose transport start succeeded, and
`deploy_and_forward_pod` panics on `service = None` or
`remote_port = None`, instead of returning an error value. -/
theorem claim_c10 :
    start_port_forward c10env [c10cfgNoId] (str "tcp") c10st = none ∧
    start_port_forward c10env [c10cfgNoSvc] (str "tcp") c10st = none ∧
    deploy_and_forward_pod c10denv [c10cfgDepNoSvc] 0 c10st = none ∧
    deploy_and_forward_pod c10denv [c10cfgDepNoPort] 0 c10st = none := by
  refine ⟨rfl, rfl, rfl, rfl⟩

/-! ### Claim C1: stop-path registry discipline -/

theorem stopAllPodStep_registry (env : StopAllEnv) (r : List Int)
    (acc : SysState) (c : Config) :
    (stopAllPodStep env r acc c).registry = acc.registry := by
  unfold stopAllPodStep
  split <;> first
    | rfl
    | (split <;> first
        | rfl
        | (split <;> first | rfl | (split <;> rfl)))

theorem foldl_podPhase_registry (env : StopAllEnv) (r : List Int) :
    ∀ (cs : List Config) (st : SysState),
      (cs.foldl (stopAllPodStep env r) st).registry = st.registry := by
  intro cs
  induction cs with
  | nil => intro st; rfl
  | cons c cs ih =>
    intro st
    rw [List.foldl_cons, ih, stopAllPodStep_registry]

theorem foldl_storePhase_registry :
    ∀ (cs : List Config) (st : SysState),
      (cs.foldl stopAllStoreStep st).registry = st.registry := by
  intro cs
  induction cs with
  | nil => intro st; rfl
  | cons c cs ih =>
    intro st
    rw [List.foldl_cons, ih]
    rfl

/-- On the found branch, `stop_port_forward` always removes the composite
key from the registry and records the abort of the handle that the registry
held under it, whatever the config store and hosts file do afterwards. -/
theorem stopOne_found_state (env : StopOneEnv) (s : List Char) (st : SysState)
    (kv : List Char × Nat)
    (hfind : st.registry.find? (fun kv => listStarts (s ++ [und]) kv.1) = some kv) :
    (stop_port_forward env s st).2.registry =
      st.registry.filter (fun kv2 => !decide (kv2.1 = kv.1)) ∧
    (stop_port_forward env s st).2.aborted = st.aborted ++
      (match regLookup st.registry kv.1 with | some h => [h] | none => []) := by
  simp only [stop_port_forward, hfind, regRemove, regLookup]
  split
  · split
    · split
      · split
        · exact ⟨rfl, rfl⟩
        · exact ⟨rfl, rfl⟩
      · exact ⟨rfl, rfl⟩
    · exact ⟨rfl, rfl⟩
  · exact ⟨rfl, rfl⟩

/-- Claim C1 (amended): every `stop_all_port_forward` call empties the
registry up front (the drain) on all of its return paths; and in
`stop_port_forward`, either no key matches the `"<id>_"` prefix — then the
registry is untouched and an error is returned — or the first matching key
is removed and the handle the registry held under it is aborted (though an
error may still be returned afterwards by the hosts-file or config-store
cleanup).  The per-key hosts-file failure of `stop_all_port_forward`, which
leaves a drained key's handle un-aborted next to an error response, is the
counterexample to the claim as stated. -/
theorem claim_c1 :
    (∀ (env : StopAllEnv) (st : SysState),
      (stop_all_port_forward env st).2.registry = []) ∧
    (∀ (env : StopOneEnv) (s : List Char) (st : SysState),
      (st.registry.find? (fun kv => listStarts (s ++ [und]) kv.1) = none →
        (stop_port_forward env s st).2.registry = st.registry ∧
        ∃ e, (stop_port_forward env s st).1 = .error e) ∧
      (∀ kv, st.registry.find? (fun kv => listStarts (s ++ [und]) kv.1) = some kv →
        (∀ kv2 ∈ (stop_port_forward env s st).2.registry, ¬ kv2.1 = kv.1) ∧
        (∀ h0, regLookup st.registry kv.1 = some h0 →
          h0 ∈ (stop_port_forward env s st).2.aborted))) := by
  constructor
  · intro env st
    simp only [stop_all_port_forward]
    split
    · rfl
    · split
      · rfl
      · rw [foldl_storePhase_registry, foldl_podPhase_registry]
  · intro env s st
    constructor
    · intro hnone
      simp only [stop_port_forward, hnone]
      exact ⟨trivial, _, rfl⟩
    · intro kv hfind
      obtain ⟨hreg, hab⟩ := stopOne_found_state env s st kv hfind
      constructor
      · intro kv2 hkv2
        rw [hreg] at hkv2
        have := List.mem_filter.mp hkv2
        simpa using this.2
      · intro h0 hh0
        rw [hab, hh0]
        simp

/-- Concrete config for the C1 counterexample: id 5, `domain_enabled`. -/
def c1cfg : Config :=
  { id := some 5
    service := some (str "svc")
    domain_enabled := some true
    remote_port := some 80
    protocol := str "tcp" }

/-- Environment for the C1 counterexample: config-state and config reads
succeed, the removing hosts-file write fails with `EROFS`. -/
def c1env : StopAllEnv :=
  ⟨none, .ok [c1cfg], fun _ => .error (str "EROFS"), fun _ => .ok none,
   fun _ => none, str "u"⟩

/-- Initial state for the C1 counterexample: one supervised forward under
key `"5_svc"` with handle 7, recorded as running. -/
def c1st : SysState := ⟨[(str "5_svc", 7)], [], [(5, true)], 8, []⟩

/-- Counterexample to claim C1 as stated: in `stop_all_port_forward`, the
path for key `"5_svc"` returns an error response (status 1, the hosts-file
error), yet the key has been removed from the registry by the drain and its
handle 7 is never aborted — the key is neither "removed with its handle
aborted" nor "left untouched". -/
theorem claim_c1_counterexample :
    (stop_all_port_forward c1env c1st).1 =
      .ok [stopAllErrResp 5 (str "svc") (str "EROFS")] ∧
    (stop_all_port_forward c1env c1st).2.registry = [] ∧
    (stop_all_port_forward c1env c1st).2.aborted = [] :=
  ⟨rfl, rfl, rfl⟩

/-- Environment for the C1 witness. -/
def c1wenv : StopAllEnv :=
  ⟨none, .ok [], fun _ => .ok (), fun _ => .ok none, fun _ => none, str "u"⟩

/-- State for the C1 witness. -/
def c1wst : SysState := ⟨[(str "1_a", 0)], [], [], 1, []⟩

/-- Environment for the stop-one half of the C1 witness. -/
def c1wenv2 : StopOneEnv := ⟨.ok [], .ok ()⟩

/-- Witness for claim C1 at concrete inputs: `stop_all_port_forward` leaves
an empty registry, and `stop_port_forward` on an id with no matching key
leaves the registry untouched. -/
theorem claim_c1_witness :
    (stop_all_port_forward c1wenv c1wst).2.registry = [] ∧
    (stop_port_forward c1wenv2 (str "9") c1wst).2.registry = c1wst.registry :=
  ⟨claim_c1.1 c1wenv c1wst,
   ((claim_c1.2 c1wenv2 (str "9") c1wst).1 (by decide)).1⟩

/-! ### Claim C8: composite-key format and parsing -/

/-- The composite registry key `format!("{}_{}", config_id, service)`. -/
def compositeKey (n : Int) (svc : List Char) : List Char :=
  i64ToString n ++ und :: svc

/-- Environment for the C8 counterexample (all reads succeed, no configs). -/
def c8env : StopAllEnv :=
  ⟨none, .ok [], fun _ => .ok (), fun _ => .ok none, fun _ => none, str "u"⟩

/-- State for the C8 counterexample: one registry entry whose service name
contains an underscore. -/
def c8st : SysState := ⟨[(str "7_my_svc", 4)], [], [], 5, []⟩

/-- Counterexample to claim C8 as stated: the composite key formatted from
`(7, "my_svc")` is `"7_my_svc"`, but `stop_all_port_forward` does not split
it on the first underscore into two halves — it splits on every underscore,
gets three parts, and reports the key as malformed (status 1,
`"Invalid composite key format"`), never aborting the handle. -/
theorem claim_c8_counterexample :
    compositeKey 7 (str "my_svc") = str "7_my_svc" ∧
    (stop_all_port_forward c8env c8st).1 = .ok [invalidKeyResp] ∧
    (stop_all_port_forward c8env c8st).2.aborted = [] :=
  ⟨rfl, rfl, rfl⟩

/-- Claim C8 (amended): `stop_port_forward` parses a composite key by
splitting on the *first* underscore; `stop_all_port_forward` instead splits
on *every* underscore and requires exactly two parts, so it rejects keys
whose service name contains an underscore as malformed.  `config_id` parses
as a signed 64-bit integer defaulting to 0 on parse failure.  On both
parsing disciplines, format-then-split recovers `(id, service)` for ids
`≥ 0` and service names free of underscores. -/
theorem claim_c8 (n : Int) (svc : List Char) (h0 : 0 ≤ n) (h1 : n < 2 ^ 63)
    (hsvc : ∀ c ∈ svc, c ≠ und) :
    splitOnceAt und (compositeKey n svc) = some (i64ToString n, svc) ∧
    splitAll und (compositeKey n svc) = [i64ToString n, svc] ∧
    parseI64OrZero (i64ToString n) = n ∧
    parseI64OrZero (str "bogus") = 0 := by
  refine ⟨?_, ?_, parseI64OrZero_round (by omega) h1, by decide⟩
  · exact splitOnceAt_append (fun c hc => i64ToString_noUnd c hc) svc
  · rw [compositeKey, splitAll_append (fun c hc => i64ToString_noUnd c hc) svc,
      splitAll_noSep hsvc]

/-- Witness for claim C8 at the concrete key `(7, "api")`. -/
theorem claim_c8_witness :
    splitOnceAt und (compositeKey 7 (str "api")) = some (i64ToString 7, str "api") ∧
    splitAll und (compositeKey 7 (str "api")) = [i64ToString 7, str "api"] ∧
    parseI64OrZero (i64ToString 7) = 7 ∧
    parseI64OrZero (str "bogus") = 0 :=
  claim_c8 7 (str "api") (by decide) (by decide) (by decide)

/-! ### Registry and store helper lemmas -/

theorem regLookup_filterSelf (reg : List (List Char × Nat)) (k : List Char) :
    regLookup (reg.filter (fun kv => !decide (kv.1 = k))) k = none := by
  have h : (reg.filter (fun kv => !decide (kv.1 = k))).find?
      (fun kv => decide (kv.1 = k)) = none := by
    rw [List.find?_eq_none]
    intro kv hkv
    have h2 := (List.mem_filter.mp hkv).2
    simp at h2 ⊢
    exact h2
  simp [regLookup, h]

theorem regRemove_regSet (k : List Char) (h : Nat) (reg : List (List Char × Nat)) :
    regRemove k (regSet k h reg) =
      (some h, reg.filter (fun kv => !decide (kv.1 = k))) := by
  unfold regRemove regSet
  rw [List.find?_cons_of_pos _ (by simp), List.filter_cons_of_neg (by simp),
    List.filter_filter]
  simp

theorem regRemove_filterSelf (k : List Char) (reg : List (List Char × Nat)) :
    regRemove k (reg.filter (fun kv => !decide (kv.1 = k))) =
      (none, reg.filter (fun kv => !decide (kv.1 = k))) := by
  have h : (reg.filter (fun kv => !decide (kv.1 = k))).find?
      (fun kv => decide (kv.1 = k)) = none := by
    rw [List.find?_eq_none]
    intro kv hkv
    have h2 := (List.mem_filter.mp hkv).2
    simp at h2 ⊢
    exact h2
  unfold regRemove
  rw [h, List.filter_filter]
  simp [Bool.and_self]

theorem storeLookup_set (i : Int) (b : Bool) (s : List (Int × Bool)) :
    storeLookup (storeSet i b s) i = some b := by
  unfold storeLookup storeSet
  rw [List.find?_cons_of_pos _ (by simp)]
  rfl

theorem intercalate_singleton {α : Type} (sep x : List α) :
    List.intercalate sep [x] = x := by
  simp [List.intercalate]

/-! ### Claim C5: IP-parse failure during `Start` -/

/-- Environment for the C5 counterexample: transport succeeds, the IP
literal does not parse. -/
def c5env : StartEnv :=
  ⟨fun _ => .ok (), fun _ => .ok 8080, fun _ => false, fun _ => .ok ()⟩

/-- Config for the C5 counterexample (`domain_enabled`, bad IP literal). -/
def c5cfg : Config :=
  { id := some 1
    service := some (str "api")
    domain_enabled := some true
    local_address := some (str "bogus")
    remote_port := some 80
    protocol := str "tcp" }

/-- Empty initial state for the C5 and C7 runs. -/
def c5st : SysState := ⟨[], [], [], 0, []⟩

/-- Counterexample to claim C5 as stated: with the sole per-config incident
being the IP-parse failure, `start_port_forward` returns an *error*, the
final registry is empty (the forward's entry is not kept), and the
forward's handle 0 has been aborted — all on account of the parse
failure. -/
theorem claim_c5_counterexample :
    start_port_forward c5env [c5cfg] (str "tcp") c5st =
      some (.error (msgBadIp (str "bogus")), ⟨[], [0], [(1, true)], 1, []⟩,
        [msgBadIp (str "bogus")]) := rfl

/-- Claim C5 (amended): a `local_address` that fails to parse is non-fatal
*within its own iteration* — the warning is recorded in the error
aggregation, the registry entry is kept at the end of the loop, the handle
is not aborted there, a success response is produced and
`is_running = true` is stored; but because the warning joins the error
list, the end-of-call rollback then aborts and removes the forward and the
call returns the warning as its error (the stale `is_running = true` row
survives the rollback). -/
theorem claim_c5 (env : StartEnv) (c : Config) (st : SysState) (n : Int)
    (sname la : List Char) (p : Nat)
    (hnew : env.newRes 0 = .ok ()) (hfwd : env.fwdRes 0 = .ok p)
    (hip : env.ipParses la = false) (hid : c.id = some n)
    (hsvc : c.service = some sname) (hla : c.local_address = some la)
    (hdom : c.domain_enabled = some true) :
    startLoop env (str "tcp") [c] 0 st =
      some ({ st with
              registry := regSet (i64ToString n ++ und :: sname)
                st.nextHandle st.registry,
              nextHandle := st.nextHandle + 1,
              store := storeSet n true st.store },
        [mkOkResp c (str "tcp") sname p], [msgBadIp la],
        [i64ToString n ++ und :: sname]) ∧
    ∃ stF, start_port_forward env [c] (str "tcp") st =
        some (.error (msgBadIp la), stF, [msgBadIp la]) ∧
      regLookup stF.registry (i64ToString n ++ und :: sname) = none ∧
      st.nextHandle ∈ stF.aborted ∧
      storeLookup stF.store n = some true := by
  have hloop : startLoop env (str "tcp") [c] 0 st =
      some ({ st with
              registry := regSet (i64ToString n ++ und :: sname)
                st.nextHandle st.registry,
              nextHandle := st.nextHandle + 1,
              store := storeSet n true st.store },
        [mkOkResp c (str "tcp") sname p], [msgBadIp la],
        [i64ToString n ++ und :: sname]) := by
    simp only [startLoop, startStep, hnew, hfwd, hid, hsvc, hla, hdom]
    rw [if_neg (show ¬ str "tcp" = str "udp" by decide)]
    simp [hip]
  refine ⟨hloop, ?_⟩
  refine ⟨{ st with
            registry := st.registry.filter
              (fun kv => !decide (kv.1 = i64ToString n ++ und :: sname)),
            nextHandle := st.nextHandle + 1,
            store := storeSet n true st.store,
            aborted := st.aborted ++ [st.nextHandle] }, ?_, ?_, ?_, ?_⟩
  · simp only [start_port_forward, hloop, Option.map_some']
    rw [if_neg (by simp)]
    simp [rollbackKeys, regRemove_regSet, intercalate_singleton]
  · exact regLookup_filterSelf st.registry _
  · simp
  · exact storeLookup_set n true st.store

/-- Witness for claim C5 at the concrete counterexample inputs. -/
theorem claim_c5_witness :
    (startLoop c5env (str "tcp") [c5cfg] 0 c5st =
      some ({ c5st with
              registry := regSet (i64ToString 1 ++ und :: str "api")
                c5st.nextHandle c5st.registry,
              nextHandle := c5st.nextHandle + 1,
              store := storeSet 1 true c5st.store },
        [mkOkResp c5cfg (str "tcp") (str "api") 8080], [msgBadIp (str "bogus")],
        [i64ToString 1 ++ und :: str "api"]) ∧
    ∃ stF, start_port_forward c5env [c5cfg] (str "tcp") c5st =
        some (.error (msgBadIp (str "bogus")), stF, [msgBadIp (str "bogus")]) ∧
      regLookup stF.registry (i64ToString 1 ++ und :: str "api") = none ∧
      c5st.nextHandle ∈ stF.aborted ∧
      storeLookup stF.store 1 = some true) :=
  claim_c5 c5env c5cfg c5st 1 (str "api") (str "bogus") 8080
    rfl rfl rfl rfl rfl rfl rfl

/-! ### Claim C7: hosts-file write failure during `Start` -/

/-- Environment for the C7 counterexample: transport succeeds, the IP
parses, the hosts-file write fails. -/
def c7env : StartEnv :=
  ⟨fun _ => .ok (), fun _ => .ok 8080, fun _ => true,
   fun _ => .error (str "EROFS")⟩

/-- Config for the C7 counterexample (`domain_enabled`, good IP literal). -/
def c7cfg : Config :=
  { id := some 1
    service := some (str "api")
    domain_enabled := some true
    local_address := some (str "10.0.0.1")
    remote_port := some 80
    protocol := str "tcp" }

/-- Counterexample to claim C7 as stated: on the hosts-file write failure
the final config-state store is empty — `is_running = true` was never
written for the config (the iteration `continue`s before the store write,
and nothing in `start_port_forward` ever deletes a store row, so a written
row would have survived to the end). -/
theorem claim_c7_counterexample :
    start_port_forward c7env [c7cfg] (str "tcp") c5st =
      some (.error (msgHostsFail (str "api") (str "EROFS")), ⟨[], [0], [], 1, []⟩,
        [msgHostsFail (str "api") (str "EROFS")]) ∧
    (start_port_forward c7env [c7cfg] (str "tcp") c5st).map
      (fun r => storeLookup r.2.1.store 1) = some none :=
  ⟨rfl, by decide⟩

/-- Claim C7 (amended): on a hosts-file write failure during `Start`, the
handle is aborted and removed immediately and the iteration is skipped
*before* the state-store write: `is_running = true` is never written for
that config (the final store equals the initial store), so this failure
path does not leave the store out of sync with the registry. -/
theorem claim_c7 (env : StartEnv) (c : Config) (st : SysState) (n : Int)
    (sname la e : List Char) (p : Nat)
    (hnew : env.newRes 0 = .ok ()) (hfwd : env.fwdRes 0 = .ok p)
    (hip : env.ipParses la = true) (hhw : env.hostsWrite 0 = .error e)
    (hid : c.id = some n)
    (hsvc : c.service = some sname) (hla : c.local_address = some la)
    (hdom : c.domain_enabled = some true) :
    ∃ stF, start_port_forward env [c] (str "tcp") st =
        some (.error (msgHostsFail sname e), stF, [msgHostsFail sname e]) ∧
      stF.store = st.store ∧
      regLookup stF.registry (i64ToString n ++ und :: sname) = none ∧
      st.nextHandle ∈ stF.aborted := by
  have hloop : startLoop env (str "tcp") [c] 0 st =
      some ({ st with
              registry := st.registry.filter
                (fun kv => !decide (kv.1 = i64ToString n ++ und :: sname)),
              nextHandle := st.nextHandle + 1,
              aborted := st.aborted ++ [st.nextHandle] },
        [], [msgHostsFail sname e], [i64ToString n ++ und :: sname]) := by
    simp only [startLoop, startStep, hnew, hfwd, hid, hsvc, hla, hdom]
    rw [if_neg (show ¬ str "tcp" = str "udp" by decide)]
    simp [hip, hhw, regRemove_regSet]
  refine ⟨{ st with
            registry := st.registry.filter
              (fun kv => !decide (kv.1 = i64ToString n ++ und :: sname)),
            nextHandle := st.nextHandle + 1,
            aborted := st.aborted ++ [st.nextHandle] }, ?_, rfl, ?_, ?_⟩
  · simp only [start_port_forward, hloop, Option.map_some']
    rw [if_neg (by simp)]
    simp [rollbackKeys, regRemove_filterSelf, intercalate_singleton]
  · exact regLookup_filterSelf st.registry _
  · simp

/-- Witness for claim C7 at the concrete counterexample inputs. -/
theorem claim_c7_witness :
    ∃ stF, start_port_forward c7env [c7cfg] (str "tcp") c5st =
        some (.error (msgHostsFail (str "api") (str "EROFS")), stF,
          [msgHostsFail (str "api") (str "EROFS")]) ∧
      stF.store = c5st.store ∧
      regLookup stF.registry (i64ToString 1 ++ und :: str "api") = none ∧
      c5st.nextHandle ∈ stF.aborted :=
  claim_c7 c7env c7cfg c5st 1 (str "api") (str "10.0.0.1") (str "EROFS") 8080
    rfl rfl rfl rfl rfl rfl rfl rfl

/-! ### Claim C6: readiness-wait failure in `deploy_and_forward_pod` -/

/-- Claim C6: when the helper pod is created but the readiness wait fails
(error or timeout), `deploy_and_forward_pod` deletes the pod with
grace-period 0 (the deletion of the hashed pod name is logged with grace 0),
returns the wait error, and leaves the registry untouched — in particular,
if no registry key carried the config's id prefix before the call, none
does afterwards. -/
theorem claim_c6 (env : DeployEnv) (c : Config) (rest : List Config)
    (st : SysState) (s m e : List Char) (rp : Nat)
    (hcl : env.clientRes 0 = .ok (some ()))
    (hsvc : c.service = some s) (hrp : c.remote_port = some rp)
    (hman : env.manifestRes 0 = .ok m)
    (hparse : ∀ x, env.podParse x = .ok ())
    (hcreate : env.createRes 0 = .ok ())
    (hwait : env.waitRes 0 = .error e)
    (hclean : ∀ kv ∈ st.registry,
      listStarts (i64ToString (c.id.getD 0) ++ [und]) kv.1 = false) :
    deploy_and_forward_pod env (c :: rest) 0 st =
      some (.error e,
        { st with deletions := st.deletions ++ [(hashedName env c 0, some 0)] }) ∧
    ∀ kv ∈ ({ st with deletions := st.deletions ++
        [(hashedName env c 0, some 0)] } : SysState).registry,
      listStarts (i64ToString (c.id.getD 0) ++ [und]) kv.1 = false := by
  constructor
  · simp only [deploy_and_forward_pod, hcl, hsvc, hrp, hman, hparse, hcreate, hwait]
  · exact hclean

/-- Deploy environment for the C6 witness: pod creation succeeds and the
readiness wait times out. -/
def c6wenv : DeployEnv :=
  ⟨fun _ => .ok (some ()), fun _ => 111, fun _ => str "abc123", str "user",
   fun _ => .ok (str "tmpl"), fun _ => .ok (), fun _ => .ok (),
   fun _ => .error (str "timed out waiting for condition"), fun _ => c10env⟩

/-- Config for the C6 witness. -/
def c6wc : Config :=
  { id := some 2
    service := some (str "db")
    remote_port := some 5432
    protocol := str "tcp" }

/-- Witness for claim C6 at concrete inputs. -/
theorem claim_c6_witness :
    deploy_and_forward_pod c6wenv [c6wc] 0 c10st =
      some (.error (str "timed out waiting for condition"),
        { c10st with deletions := c10st.deletions ++
            [(hashedName c6wenv c6wc 0, some 0)] }) ∧
    ∀ kv ∈ ({ c10st with deletions := c10st.deletions ++
        [(hashedName c6wenv c6wc 0, some 0)] } : SysState).registry,
      listStarts (i64ToString (c6wc.id.getD 0) ++ [und]) kv.1 = false :=
  claim_c6 c6wenv c6wc [] c10st (str "db") (str "tmpl")
    (str "timed out waiting for condition") 5432
    rfl rfl rfl rfl (fun _ => rfl) rfl rfl
    (by intro a h; simp [c10st] at h)

/-! ### Claim C4: `stop_port_forward` postcondition -/

theorem eq_of_mem_of_length_le_one {α : Type} {l : List α} {a b : α}
    (h : l.length ≤ 1) (ha : a ∈ l) (hb : b ∈ l) : a = b := by
  cases l with
  | nil => cases ha
  | cons x xs =>
    have hx : xs = [] := by
      cases xs with
      | nil => rfl
      | cons y ys => simp at h
    subst hx
    simp at ha hb
    rw [ha, hb]

/-- On the found branch with the composite key splitting back into the
searched id and a service name, every return path of `stop_port_forward`
upserts `is_running = false` for the parsed id. -/
theorem stopOne_found_store (env : StopOneEnv) (s : List Char) (st : SysState)
    (kv : List Char × Nat) (t : List Char)
    (hfind : st.registry.find? (fun kv => listStarts (s ++ [und]) kv.1) = some kv)
    (hsplit : splitOnceAt und kv.1 = some (s, t)) :
    (stop_port_forward env s st).2.store =
      storeSet (parseI64OrZero s) false st.store := by
  simp only [stop_port_forward, hfind, hsplit, Option.getD_some]
  split <;> first
    | rfl
    | (split <;> first | rfl | (split <;> first | rfl | (split <;> rfl)))

/-- Claim C4: for an id string free of underscores, when at most one
registry key carries the `"<id>_"` prefix, then after `stop_port_forward`
returns — whether with a success response, the "not found" error, or a
cleanup error — no registry key has the prefix and the state store records
`is_running = false` for the parsed id. -/
theorem claim_c4 (env : StopOneEnv) (s : List Char) (st : SysState)
    (hund : ∀ c ∈ s, c ≠ und)
    (hone : (st.registry.filter
      (fun kv => listStarts (s ++ [und]) kv.1)).length ≤ 1) :
    (∀ kv ∈ (stop_port_forward env s st).2.registry,
      listStarts (s ++ [und]) kv.1 = false) ∧
    storeLookup (stop_port_forward env s st).2.store (parseI64OrZero s) =
      some false := by
  cases hfind : st.registry.find? (fun kv => listStarts (s ++ [und]) kv.1) with
  | none =>
    constructor
    · intro kv hkv
      simp only [stop_port_forward, hfind] at hkv
      have h2 := List.find?_eq_none.mp hfind kv hkv
      simpa using h2
    · simp only [stop_port_forward, hfind]
      exact storeLookup_set _ false st.store
  | some kv =>
    have hpred0 := List.find?_some hfind
    have hpred : listStarts (s ++ [und]) kv.1 = true := hpred0
    obtain ⟨t, hk⟩ := (listStarts_iff _ _).mp hpred
    have hk2 : kv.1 = s ++ und :: t := by
      rw [hk, List.append_assoc]; rfl
    have hsplit : splitOnceAt und kv.1 = some (s, t) := by
      rw [hk2]; exact splitOnceAt_append hund t
    obtain ⟨hreg, hab⟩ := stopOne_found_state env s st kv hfind
    have hstore := stopOne_found_store env s st kv t hfind hsplit
    constructor
    · intro kv2 hkv2
      rw [hreg] at hkv2
      obtain ⟨hmem2, hne⟩ := List.mem_filter.mp hkv2
      by_contra hcon
      have hpred2 : listStarts (s ++ [und]) kv2.1 = true := by
        cases hb : listStarts (s ++ [und]) kv2.1
        · exact absurd hb hcon
        · rfl
      have hmem1 := List.mem_of_find?_eq_some hfind
      have h1 : kv ∈ st.registry.filter
          (fun kv => listStarts (s ++ [und]) kv.1) :=
        List.mem_filter.mpr ⟨hmem1, hpred⟩
      have h2 : kv2 ∈ st.registry.filter
          (fun kv => listStarts (s ++ [und]) kv.1) :=
        List.mem_filter.mpr ⟨hmem2, hpred2⟩
      have hne2 : kv2 ≠ kv := by
        intro he
        rw [he] at hne
        simp at hne
      exact hne2 (eq_of_mem_of_length_le_one hone h2 h1)
    · rw [hstore]
      exact storeLookup_set _ false st.store

/-- Environment for the C4 witness. -/
def c4env : StopOneEnv := ⟨.ok [], .ok ()⟩

/-- State for the C4 witness: one forward under key `"7_api"`. -/
def c4st : SysState := ⟨[(str "7_api", 3)], [], [], 4, []⟩

/-- Witness for claim C4 at the concrete id `"7"`. -/
theorem claim_c4_witness :
    (∀ kv ∈ (stop_port_forward c4env (str "7") c4st).2.registry,
      listStarts (str "7" ++ [und]) kv.1 = false) ∧
    storeLookup (stop_port_forward c4env (str "7") c4st).2.store
      (parseI64OrZero (str "7")) = some false :=
  claim_c4 c4env (str "7") c4st (by decide) (by decide)

/-! ### Claim C2: full rollback on any `Start` error -/

theorem find?_filter_of_imp {α : Type} (p q : α → Bool) (l : List α)
    (himp : ∀ a, p a = true → q a = true) :
    (l.filter q).find? p = l.find? p := by
  induction l with
  | nil => rfl
  | cons a l ih =>
    cases hq : q a with
    | false =>
      rw [List.filter_cons_of_neg (by simp [hq])]
      have hp : p a = false := by
        cases hp : p a with
        | false => rfl
        | true => rw [himp a hp] at hq; cases hq
      rw [List.find?_cons_of_neg _ (by simp [hp]), ih]
    | true =>
      rw [List.filter_cons_of_pos (by simp [hq])]
      cases hp : p a with
      | false => rw [List.find?_cons_of_neg _ (by simp [hp]),
          List.find?_cons_of_neg _ (by simp [hp]), ih]
      | true => rw [List.find?_cons_of_pos _ (by simp [hp]),
          List.find?_cons_of_pos _ (by simp [hp])]

theorem regLookup_filter_ne (reg : List (List Char × Nat)) (k key : List Char)
    (hne : ¬ k = key) :
    regLookup (reg.filter (fun kv => !decide (kv.1 = key))) k = regLookup reg k := by
  unfold regLookup
  rw [find?_filter_of_imp]
  intro a ha
  simp at ha ⊢
  rw [ha]
  exact hne

theorem regLookup_regSet_self (k : List Char) (h : Nat)
    (reg : List (List Char × Nat)) : regLookup (regSet k h reg) k = some h := by
  unfold regLookup regSet
  rw [List.find?_cons_of_pos _ (by simp)]
  rfl

theorem regLookup_regSet_ne (k k' : List Char) (h : Nat)
    (reg : List (List Char × Nat)) (hne : ¬ k' = k) :
    regLookup (regSet k h reg) k' = regLookup reg k' := by
  unfold regLookup regSet
  rw [List.find?_cons_of_neg _ (by simp; intro hc; exact absurd hc.symm hne)]
  have h2 := regLookup_filter_ne reg k' k hne
  unfold regLookup at h2
  exact h2

/-- The per-iteration invariant of `start_port_forward`'s loop body. -/
def StepInv (c : Config) (st st' : SysState) (ks : List (List Char)) : Prop :=
  st.nextHandle ≤ st'.nextHandle ∧
  (∀ a ∈ st.aborted, a ∈ st'.aborted) ∧
  (ks = [] ∨ ks = [keyFor c]) ∧
  (∀ kv ∈ st'.registry, kv ∈ st.registry ∨
    (kv.1 = keyFor c ∧ kv.2 = st.nextHandle ∧ ks = [keyFor c] ∧
      st'.nextHandle = st.nextHandle + 1)) ∧
  (st'.nextHandle = st.nextHandle ∨ st'.nextHandle = st.nextHandle + 1) ∧
  (st'.nextHandle = st.nextHandle + 1 →
    (st.nextHandle ∈ st'.aborted ∨
     regLookup st'.registry (keyFor c) = some st.nextHandle) ∧ ks = [keyFor c]) ∧
  (∀ k, ¬ k = keyFor c → regLookup st'.registry k = regLookup st.registry k)

theorem stepInv_id (c : Config) (st : SysState) : StepInv c st st [] := by
  refine ⟨le_refl _, fun a ha => ha, Or.inl rfl, fun kv hkv => Or.inl hkv,
    Or.inl rfl, fun hn => absurd hn (by omega), fun k _ => rfl⟩

theorem startStep_inv (env : StartEnv) (protocol : List Char) (c : Config)
    (i : Nat) (st st' : SysState) (rs : List CustomResponse)
    (es ks : List (List Char))
    (h : startStep env protocol c i st = some (st', rs, es, ks)) :
    StepInv c st st' ks := by
  simp only [startStep] at h
  split at h
  · -- PortForward::new failed
    simp only [Option.some.injEq, Prod.mk.injEq] at h
    obtain ⟨rfl, rfl, rfl, rfl⟩ := h
    exact stepInv_id c st
  · split at h
    · -- transport failed
      simp only [Option.some.injEq, Prod.mk.injEq] at h
      obtain ⟨rfl, rfl, rfl, rfl⟩ := h
      exact stepInv_id c st
    · -- transport succeeded; split on c.id
      rename_i actualPort
      split at h
      · cases h
      · rename_i cid hcid
        have hkeyc : keyFor c = i64ToString cid ++ und :: c.service.getD [] := by
          simp [keyFor, hcid]
        split at h
        · -- domain_enabled
          split at h
          · rename_i sname la hsvc hla
            split at h
            · -- ip parses
              split at h
              · -- hosts write failed
                rw [regRemove_regSet] at h
                simp only [Option.some.injEq, Prod.mk.injEq] at h
                obtain ⟨rfl, rfl, rfl, rfl⟩ := h
                rw [← hkeyc]
                refine ⟨by simp, ?_, Or.inr rfl, ?_, Or.inr rfl, ?_, ?_⟩
                · intro a ha; simp [ha]
                · intro kv hkv
                  exact Or.inl (List.mem_filter.mp hkv).1
                · intro _
                  exact ⟨Or.inl (by simp), rfl⟩
                · intro k hk
                  exact regLookup_filter_ne st.registry k (keyFor c) hk
              · -- hosts write ok: finish
                split at h
                · cases h
                · rename_i sname2 hsvc2
                  simp only [Option.some.injEq, Prod.mk.injEq] at h
                  obtain ⟨rfl, rfl, rfl, rfl⟩ := h
                  rw [← hkeyc]
                  refine ⟨by simp, fun a ha => ha, Or.inr rfl, ?_, Or.inr rfl,
                    ?_, ?_⟩
                  · intro kv hkv
                    rcases List.mem_cons.mp hkv with h1 | h1
                    · exact Or.inr (by rw [h1]; exact ⟨rfl, rfl, rfl, rfl⟩)
                    · exact Or.inl (List.mem_filter.mp h1).1
                  · intro _
                    exact ⟨Or.inr (regLookup_regSet_self _ _ _), rfl⟩
                  · intro k hk
                    exact regLookup_regSet_ne _ k _ st.registry hk
            · -- ip does not parse: finish with warning
              split at h
              · cases h
              · rename_i sname2 hsvc2
                simp only [Option.some.injEq, Prod.mk.injEq] at h
                obtain ⟨rfl, rfl, rfl, rfl⟩ := h
                rw [← hkeyc]
                refine ⟨by simp, fun a ha => ha, Or.inr rfl, ?_, Or.inr rfl,
                  ?_, ?_⟩
                · intro kv hkv
                  rcases List.mem_cons.mp hkv with h1 | h1
                  · exact Or.inr (by rw [h1]; exact ⟨rfl, rfl, rfl, rfl⟩)
                  · exact Or.inl (List.mem_filter.mp h1).1
                · intro _
                  exact ⟨Or.inr (regLookup_regSet_self _ _ _), rfl⟩
                · intro k hk
                  exact regLookup_regSet_ne _ k _ st.registry hk
          · -- service or local_address absent: finish
            split at h
            · cases h
            · rename_i sname2 hsvc2
              simp only [Option.some.injEq, Prod.mk.injEq] at h
              obtain ⟨rfl, rfl, rfl, rfl⟩ := h
              rw [← hkeyc]
              refine ⟨by simp, fun a ha => ha, Or.inr rfl, ?_, Or.inr rfl,
                ?_, ?_⟩
              · intro kv hkv
                rcases List.mem_cons.mp hkv with h1 | h1
                · exact Or.inr (by rw [h1]; exact ⟨rfl, rfl, rfl, rfl⟩)
                · exact Or.inl (List.mem_filter.mp h1).1
              · intro _
                exact ⟨Or.inr (regLookup_regSet_self _ _ _), rfl⟩
              · intro k hk
                exact regLookup_regSet_ne _ k _ st.registry hk
        · -- domain disabled: finish
          split at h
          · cases h
          · rename_i sname2 hsvc2
            simp only [Option.some.injEq, Prod.mk.injEq] at h
            obtain ⟨rfl, rfl, rfl, rfl⟩ := h
            rw [← hkeyc]
            refine ⟨by simp, fun a ha => ha, Or.inr rfl, ?_, Or.inr rfl,
              ?_, ?_⟩
            · intro kv hkv
              rcases List.mem_cons.mp hkv with h1 | h1
              · exact Or.inr (by rw [h1]; exact ⟨rfl, rfl, rfl, rfl⟩)
              · exact Or.inl (List.mem_filter.mp h1).1
            · intro _
              exact ⟨Or.inr (regLookup_regSet_self _ _ _), rfl⟩
            · intro k hk
              exact regLookup_regSet_ne _ k _ st.registry hk

/-- The whole-loop invariant of `start_port_forward`. -/
def LoopInv (cfgs : List Config) (st st' : SysState) (ks : List (List Char)) : Prop :=
  st.nextHandle ≤ st'.nextHandle ∧
  (∀ a ∈ st.aborted, a ∈ st'.aborted) ∧
  ks.Sublist (cfgs.map keyFor) ∧
  (∀ kv ∈ st'.registry, kv.2 < st'.nextHandle) ∧
  (∀ kv ∈ st'.registry, st.nextHandle ≤ kv.2 → kv.1 ∈ ks) ∧
  (∀ kv ∈ st'.registry, kv ∈ st.registry ∨ kv.1 ∈ ks) ∧
  (∀ k, k ∉ cfgs.map keyFor → regLookup st'.registry k = regLookup st.registry k) ∧
  ((cfgs.map keyFor).Nodup →
    ∀ h, st.nextHandle ≤ h → h < st'.nextHandle →
      h ∈ st'.aborted ∨ ∃ k, k ∈ ks ∧ regLookup st'.registry k = some h)

theorem startLoop_inv (env : StartEnv) (protocol : List Char) :
    ∀ (cfgs : List Config) (i : Nat) (st st' : SysState)
      (rs : List CustomResponse) (es ks : List (List Char)),
      (∀ kv ∈ st.registry, kv.2 < st.nextHandle) →
      startLoop env protocol cfgs i st = some (st', rs, es, ks) →
      LoopInv cfgs st st' ks := by
  intro cfgs
  induction cfgs with
  | nil =>
    intro i st st' rs es ks hwf h
    simp only [startLoop, Option.some.injEq, Prod.mk.injEq] at h
    obtain ⟨rfl, rfl, rfl, rfl⟩ := h
    refine ⟨le_refl _, fun a ha => ha, by simp, hwf, ?_,
      fun kv hkv => Or.inl hkv, fun k _ => rfl, ?_⟩
    · intro kv hkv hge
      exact absurd (hwf kv hkv) (by omega)
    · intro _ h hge hlt
      omega
  | cons c rest ih =>
    intro i st st' rs es ks hwf h
    simp only [startLoop] at h
    cases hstep : startStep env protocol c i st with
    | none => simp [hstep] at h
    | some r =>
      obtain ⟨st1, rs0, es0, ks0⟩ := r
      simp only [hstep] at h
      cases hloop : startLoop env protocol rest (i + 1) st1 with
      | none => simp [hloop] at h
      | some r2 =>
        obtain ⟨st2, rs2, es2, ks2⟩ := r2
        simp only [hloop] at h
        simp only [Option.some.injEq, Prod.mk.injEq] at h
        obtain ⟨rfl, rfl, rfl, rfl⟩ := h
        obtain ⟨S1, S2, S3, S4, S5, S6, S7⟩ :=
          startStep_inv env protocol c i st st1 rs0 es0 ks0 hstep
        have hwf1 : ∀ kv ∈ st1.registry, kv.2 < st1.nextHandle := by
          intro kv hkv
          rcases S4 kv hkv with h1 | ⟨_, h2, _, h4⟩
          · exact lt_of_lt_of_le (hwf kv h1) S1
          · omega
        obtain ⟨L1, L2, L3, L4, L5, L6, L7, L8⟩ :=
          ih (i + 1) st1 st2 rs2 es2 ks2 hwf1 hloop
        refine ⟨le_trans S1 L1, fun a ha => L2 a (S2 a ha), ?_, L4, ?_, ?_, ?_, ?_⟩
        · rcases S3 with rfl | rfl
          · simp only [List.nil_append, List.map_cons]
            exact L3.trans (List.sublist_cons_self _ _)
          · simpa using L3.cons₂ (keyFor c)
        · intro kv hkv hge
          rcases L6 kv hkv with h1 | h1
          · rcases S4 kv h1 with h2 | ⟨h2, h3, h4, _⟩
            · exact absurd (hwf kv h2) (by omega)
            · rw [h4]
              simp [h2]
          · simp [h1]
        · intro kv hkv
          rcases L6 kv hkv with h1 | h1
          · rcases S4 kv h1 with h2 | ⟨h2, h3, h4, _⟩
            · exact Or.inl h2
            · exact Or.inr (by rw [h4]; simp [h2])
          · exact Or.inr (by simp [h1])
        · intro k hk
          have hk1 : k ∉ List.map keyFor rest := by
            intro hc; exact hk (by simp [hc])
          have hk2 : ¬ k = keyFor c := by
            intro hc; exact hk (by simp [hc])
          rw [L7 k hk1, S7 k hk2]
        · intro hnodup h hge hlt
          have hnodup0 := hnodup
          simp only [List.map_cons, List.nodup_cons] at hnodup0
          by_cases hcase : h < st1.nextHandle
          · have hnext : st1.nextHandle = st.nextHandle + 1 := by
              rcases S5 with h5 | h5
              · omega
              · exact h5
            have hh : h = st.nextHandle := by omega
            obtain ⟨S6a, S6b⟩ := S6 hnext
            rcases S6a with ha | hl2
            · exact Or.inl (L2 _ (by rw [hh]; exact ha))
            · refine Or.inr ⟨keyFor c, by simp [S6b], ?_⟩
              rw [L7 (keyFor c) hnodup0.1, hh]
              exact hl2
          · rcases L8 hnodup0.2 h (by omega) hlt with h1 | ⟨k, hk1, hk2⟩
            · exact Or.inl h1
            · exact Or.inr ⟨k, by simp [hk1], hk2⟩

theorem rollback_basic : ∀ (ks : List (List Char)) (st : SysState),
    (rollbackKeys ks st).nextHandle = st.nextHandle ∧
    (rollbackKeys ks st).store = st.store ∧
    (∀ a ∈ st.aborted, a ∈ (rollbackKeys ks st).aborted) ∧
    (∀ kv ∈ (rollbackKeys ks st).registry, kv ∈ st.registry ∧ kv.1 ∉ ks) := by
  intro ks
  induction ks with
  | nil =>
    intro st
    exact ⟨rfl, rfl, fun a ha => ha, fun kv hkv => ⟨hkv, by simp⟩⟩
  | cons k ks ih =>
    intro st
    simp only [rollbackKeys]
    obtain ⟨i1, i2, i3, i4⟩ := ih
      { st with registry := (regRemove k st.registry).2,
                aborted := st.aborted ++
                  (match (regRemove k st.registry).1 with
                   | some h => [h] | none => []) }
    refine ⟨i1, i2, ?_, ?_⟩
    · intro a ha
      exact i3 a (by simp [ha])
    · intro kv hkv
      obtain ⟨hmem, hnk⟩ := i4 kv hkv
      have hmem2 := List.mem_filter.mp hmem
      refine ⟨hmem2.1, ?_⟩
      intro hc
      rcases List.mem_cons.mp hc with he | hc2
      · have h3 := hmem2.2
        rw [he] at h3
        simp at h3
      · exact hnk hc2

theorem rollback_aborts : ∀ (ks : List (List Char)) (st : SysState), ks.Nodup →
    ∀ k ∈ ks, ∀ h, regLookup st.registry k = some h →
      h ∈ (rollbackKeys ks st).aborted := by
  intro ks
  induction ks with
  | nil => intro st _ k hk; cases hk
  | cons k0 ks ih =>
    intro st hnodup k hk h hl
    simp only [rollbackKeys]
    simp only [List.nodup_cons] at hnodup
    rcases List.mem_cons.mp hk with rfl | hk2
    · have hrem : (regRemove k st.registry).1 = some h := hl
      rw [hrem]
      exact (rollback_basic ks _).2.2.1 h (by simp)
    · have hne : ¬ k = k0 := by
        intro he
        rw [he] at hk2
        exact hnodup.1 hk2
      refine ih _ hnodup.2 k hk2 h ?_
      show regLookup (regRemove k0 st.registry).2 k = some h
      have h2 : (regRemove k0 st.registry).2 =
          st.registry.filter (fun kv => !decide (kv.1 = k0)) := rfl
      rw [h2, regLookup_filter_ne _ k k0 hne]
      exact hl

/-- Claim C2: if `start_port_forward` (run on a batch whose composite keys
are pairwise distinct, starting from a state whose handle counter is fresh)
returns an error, then the call returns the accumulated per-config errors
joined by newlines as a single error string, every handle allocated (and
hence registered) during the call has been aborted, and no such handle
remains in the registry — no partial list of successes coexists with an
error (an `Ok` return is only produced when the error list is empty). -/
theorem claim_c2 (env : StartEnv) (cfgs : List Config) (protocol : List Char)
    (st : SysState) (msg : List Char) (st' : SysState) (errs : List (List Char))
    (hwf : ∀ kv ∈ st.registry, kv.2 < st.nextHandle)
    (hnodup : (cfgs.map keyFor).Nodup)
    (hrun : start_port_forward env cfgs protocol st =
      some (.error msg, st', errs)) :
    errs ≠ [] ∧ msg = List.intercalate [nl] errs ∧
    (∀ h, st.nextHandle ≤ h → h < st'.nextHandle → h ∈ st'.aborted) ∧
    (∀ kv ∈ st'.registry, kv.2 < st.nextHandle) := by
  cases hl : startLoop env protocol cfgs 0 st with
  | none => simp [start_port_forward, hl] at hrun
  | some r =>
    obtain ⟨stL, rs, errsL, ks⟩ := r
    simp only [start_port_forward, hl, Option.map_some'] at hrun
    by_cases he : errsL = []
    · simp [he] at hrun
    · simp only [if_neg he, Option.some.injEq, Prod.mk.injEq,
        Except.error.injEq] at hrun
      obtain ⟨hmsg, hst, herrs⟩ := hrun
      subst herrs
      subst hst
      obtain ⟨L1, L2, L3, L4, L5, L6, L7, L8⟩ :=
        startLoop_inv env protocol cfgs 0 st stL rs errsL ks hwf hl
      have ksNodup : ks.Nodup := List.Nodup.sublist L3 hnodup
      obtain ⟨R1, R2, R3, R4⟩ := rollback_basic ks stL
      refine ⟨he, hmsg.symm, ?_, ?_⟩
      · intro h hge hlt
        rw [R1] at hlt
        rcases L8 hnodup h hge hlt with h1 | ⟨k, hk1, hk2⟩
        · exact R3 h h1
        · exact rollback_aborts ks stL ksNodup k hk1 h hk2
      · intro kv hkv
        obtain ⟨hmem, hnk⟩ := R4 kv hkv
        by_cases hge : st.nextHandle ≤ kv.2
        · exact absurd (L5 kv hmem hge) hnk
        · omega

/-- Environment for the C2 witness: first transport start binds port 9000,
the second fails. -/
def c2wenv : StartEnv :=
  ⟨fun _ => .ok (),
   fun i => if i = 0 then .ok 9000 else .error (str "bind fail"),
   fun _ => true, fun _ => .ok ()⟩

/-- First config of the C2 witness batch. -/
def c2wa : Config :=
  { id := some 1
    service := some (str "a")
    remote_port := some 80
    protocol := str "tcp" }

/-- Second config of the C2 witness batch. -/
def c2wb : Config :=
  { id := some 2
    service := some (str "b")
    remote_port := some 81
    protocol := str "tcp" }

/-- Empty initial state for the C2 witness. -/
def c2wst : SysState := ⟨[], [], [], 0, []⟩

/-- Witness for claim C2: the first forward of the batch is started and
then rolled back (its handle 0 is aborted, the registry ends empty) when
the second config's transport fails. -/
theorem claim_c2_witness :
    [msgFwdFail (str "tcp") c2wb (str "bind fail")] ≠ ([] : List (List Char)) ∧
    msgFwdFail (str "tcp") c2wb (str "bind fail") =
      List.intercalate [nl] [msgFwdFail (str "tcp") c2wb (str "bind fail")] ∧
    (∀ h, c2wst.nextHandle ≤ h →
      h < (⟨[], [0], [(1, true)], 1, []⟩ : SysState).nextHandle →
      h ∈ (⟨[], [0], [(1, true)], 1, []⟩ : SysState).aborted) ∧
    (∀ kv ∈ (⟨[], [0], [(1, true)], 1, []⟩ : SysState).registry,
      kv.2 < c2wst.nextHandle) :=
  claim_c2 c2wenv [c2wa, c2wb] (str "tcp") c2wst
    (msgFwdFail (str "tcp") c2wb (str "bind fail"))
    ⟨[], [0], [(1, true)], 1, []⟩
    [msgFwdFail (str "tcp") c2wb (str "bind fail")]
    (fun kv hkv => absurd hkv (List.not_mem_nil kv))
    (by decide) rfl

/-! ### Claim C3: successful `Start` postcondition -/

/-- The registry pairs inserted by an error-free `start_port_forward` run,
in input order, with handles numbered from `h0`. -/
def buildPairs : List Config → Nat → List (List Char × Nat)
  | [], _ => []
  | c :: cs, h0 => (keyFor c, h0) :: buildPairs cs (h0 + 1)

theorem filter_ne_of_not_mem (k : List Char) (reg : List (List Char × Nat))
    (h : k ∉ reg.map Prod.fst) :
    reg.filter (fun kv => !decide (kv.1 = k)) = reg := by
  induction reg with
  | nil => rfl
  | cons kv reg ih =>
    simp only [List.map_cons, List.mem_cons] at h
    push_neg at h
    rw [List.filter_cons_of_pos (by simp; intro hc; exact h.1 hc.symm),
      ih h.2]

theorem startStep_clean (env : StartEnv) (protocol : List Char) (c : Config)
    (i : Nat) (st st1 : SysState) (rs0 : List CustomResponse)
    (ks0 : List (List Char))
    (h : startStep env protocol c i st = some (st1, rs0, [], ks0)) :
    ∃ n, c.id = some n ∧
      st1.registry = regSet (keyFor c) st.nextHandle st.registry ∧
      st1.store = storeSet n true st.store ∧
      st1.aborted = st.aborted ∧
      st1.nextHandle = st.nextHandle + 1 ∧
      ks0 = [keyFor c] := by
  simp only [startStep] at h
  split at h
  · simp at h
  · split at h
    · simp at h
    · split at h
      · cases h
      · rename_i cid hcid
        have hkeyc : keyFor c = i64ToString cid ++ und :: c.service.getD [] := by
          simp [keyFor, hcid]
        split at h
        · split at h
          · split at h
            · split at h
              · simp at h
              · split at h
                · cases h
                · simp only [Option.some.injEq, Prod.mk.injEq] at h
                  obtain ⟨rfl, _, _, rfl⟩ := h
                  exact ⟨cid, hcid, by rw [hkeyc], rfl, rfl, rfl, by rw [hkeyc]⟩
            · split at h
              · cases h
              · simp only [Option.some.injEq, Prod.mk.injEq] at h
                exact absurd h.2.2.1 (by simp)
          · split at h
            · cases h
            · simp only [Option.some.injEq, Prod.mk.injEq] at h
              obtain ⟨rfl, _, _, rfl⟩ := h
              exact ⟨cid, hcid, by rw [hkeyc], rfl, rfl, rfl, by rw [hkeyc]⟩
        · split at h
          · cases h
          · simp only [Option.some.injEq, Prod.mk.injEq] at h
            obtain ⟨rfl, _, _, rfl⟩ := h
            exact ⟨cid, hcid, by rw [hkeyc], rfl, rfl, rfl, by rw [hkeyc]⟩

theorem startLoop_clean (env : StartEnv) (protocol : List Char) :
    ∀ (cfgs : List Config) (i : Nat) (st st' : SysState)
      (rs : List CustomResponse) (ks : List (List Char)),
      startLoop env protocol cfgs i st = some (st', rs, [], ks) →
      (∀ c ∈ cfgs, keyFor c ∉ st.registry.map Prod.fst) →
      (cfgs.map keyFor).Nodup →
      st'.registry = (buildPairs cfgs st.nextHandle).reverse ++ st.registry ∧
      st'.store = cfgs.foldl (fun s c => storeSet (c.id.getD 0) true s) st.store ∧
      (∀ c ∈ cfgs, ∃ n, c.id = some n) := by
  intro cfgs
  induction cfgs with
  | nil =>
    intro i st st' rs ks h _ _
    simp only [startLoop, Option.some.injEq, Prod.mk.injEq] at h
    obtain ⟨rfl, rfl, _, rfl⟩ := h
    exact ⟨by simp [buildPairs], rfl, by simp⟩
  | cons c rest ih =>
    intro i st st' rs ks h hfresh hnodup
    simp only [startLoop] at h
    cases hstep : startStep env protocol c i st with
    | none => simp [hstep] at h
    | some r =>
      obtain ⟨st1, rs0, es0, ks0⟩ := r
      simp only [hstep] at h
      cases hloop : startLoop env protocol rest (i + 1) st1 with
      | none => simp [hloop] at h
      | some r2 =>
        obtain ⟨st2, rs2, es2, ks2⟩ := r2
        simp only [hloop] at h
        simp only [Option.some.injEq, Prod.mk.injEq] at h
        obtain ⟨rfl, hrs, hes, hks⟩ := h
        have hes0 : es0 = [] ∧ es2 = [] := List.append_eq_nil.mp hes
        obtain ⟨n, hid, hreg1, hstore1, hab1, hnext1, hks0⟩ :=
          startStep_clean env protocol c i st st1 rs0 ks0 (hes0.1 ▸ hstep)
        simp only [List.map_cons, List.nodup_cons] at hnodup
        have hfkc : keyFor c ∉ st.registry.map Prod.fst :=
          hfresh c (by simp)
        have hreg1' : st1.registry = (keyFor c, st.nextHandle) :: st.registry := by
          rw [hreg1, regSet, filter_ne_of_not_mem _ _ hfkc]
        have hfresh1 : ∀ c' ∈ rest, keyFor c' ∉ st1.registry.map Prod.fst := by
          intro c' hc'
          rw [hreg1']
          simp only [List.map_cons, List.mem_cons]
          push_neg
          constructor
          · intro hc
            exact hnodup.1 (by rw [← hc]; exact List.mem_map_of_mem keyFor hc')
          · exact hfresh c' (by simp [hc'])
        obtain ⟨ih1, ih2, ih3⟩ := ih (i + 1) st1 st2 rs2 ks2
          (hes0.2 ▸ hloop) hfresh1 hnodup.2
        refine ⟨?_, ?_, ?_⟩
        · rw [ih1, hreg1', hnext1]
          simp only [buildPairs, List.reverse_cons, List.append_assoc,
            List.singleton_append]
        · rw [ih2, hstore1, List.foldl_cons, hid]
          rfl
        · intro c' hc'
          rcases List.mem_cons.mp hc' with rfl | hc2
          · exact ⟨n, hid⟩
          · exact ih3 c' hc2

theorem keyFor_eq (c : Config) (n : Int) (hid : c.id = some n) :
    keyFor c = i64ToString n ++ und :: (c.service.getD []) := by
  simp [keyFor, hid]

theorem pre_starts_key (c : Config) (n : Int) (hid : c.id = some n) :
    listStarts (i64ToString n ++ [und]) (keyFor c) = true := by
  rw [keyFor_eq c n hid]
  apply (listStarts_iff _ _).mpr
  refine ⟨c.service.getD [], ?_⟩
  rw [List.append_assoc]
  rfl

theorem pre_starts_key_ne (c : Config) (n n' : Int) (hid : c.id = some n')
    (hne : n ≠ n')
    (hr0 : -(2 ^ 63) ≤ n) (hr1 : n < 2 ^ 63)
    (hr0' : -(2 ^ 63) ≤ n') (hr1' : n' < 2 ^ 63) :
    listStarts (i64ToString n ++ [und]) (keyFor c) = false := by
  cases hb : listStarts (i64ToString n ++ [und]) (keyFor c) with
  | false => rfl
  | true =>
    exfalso
    obtain ⟨t, ht⟩ := (listStarts_iff _ _).mp hb
    rw [keyFor_eq c n' hid, List.append_assoc, List.singleton_append] at ht
    obtain ⟨heq, _⟩ := und_append_inj (i64ToString_noUnd (n := n'))
      (i64ToString_noUnd (n := n)) ht
    exact hne (i64ToString_inj hr0' hr1' hr0 hr1 heq).symm

/-- The number of registry entries whose key starts with a given prefix. -/
def countPre (reg : List (List Char × Nat)) (p : List Char) : Nat :=
  (reg.filter (fun kv => listStarts p kv.1)).length

theorem countPre_append (r1 r2 : List (List Char × Nat)) (p : List Char) :
    countPre (r1 ++ r2) p = countPre r1 p + countPre r2 p := by
  simp [countPre, List.filter_append]

theorem countPre_reverse (r : List (List Char × Nat)) (p : List Char) :
    countPre r.reverse p = countPre r p := by
  simp [countPre, List.filter_reverse]

theorem countPre_buildPairs : ∀ (cfgs : List Config) (h0 : Nat) (p : List Char),
    countPre (buildPairs cfgs h0) p =
      (cfgs.filter (fun c => listStarts p (keyFor c))).length := by
  intro cfgs
  induction cfgs with
  | nil => intro h0 p; rfl
  | cons c rest ih =>
    intro h0 p
    simp only [buildPairs, countPre]
    by_cases hb : listStarts p (keyFor c) = true
    · rw [List.filter_cons_of_pos (by simpa using hb),
        List.filter_cons_of_pos (by simpa using hb)]
      simp only [List.length_cons]
      have := ih (h0 + 1) p
      simp only [countPre] at this
      rw [this]
    · rw [List.filter_cons_of_neg (by simpa using hb),
        List.filter_cons_of_neg (by simpa using hb)]
      have := ih (h0 + 1) p
      simp only [countPre] at this
      rw [this]

theorem filter_pre_length_one : ∀ (cfgs : List Config) (n : Int),
    n ∈ cfgs.filterMap Config.id →
    (∀ c' ∈ cfgs, ∃ m, c'.id = some m) →
    (∀ c' ∈ cfgs, ∀ n', c'.id = some n' → -(2 ^ 63) ≤ n' ∧ n' < 2 ^ 63) →
    (cfgs.filterMap Config.id).Nodup →
    (cfgs.filter
      (fun c' => listStarts (i64ToString n ++ [und]) (keyFor c'))).length = 1 := by
  intro cfgs
  induction cfgs with
  | nil => intro n hn; simp at hn
  | cons c0 rest ih =>
    intro n hn hall hr hnodup
    obtain ⟨n0, hc0⟩ := hall c0 (by simp)
    have hfm : (c0 :: rest).filterMap Config.id = n0 :: rest.filterMap Config.id := by
      simp [List.filterMap_cons, hc0]
    rw [hfm] at hn hnodup
    simp only [List.nodup_cons] at hnodup
    have hrange0 := hr c0 (by simp) n0 hc0
    rcases List.mem_cons.mp hn with rfl | hn2
    · -- n = n0: the head matches, the tail contributes nothing
      rw [List.filter_cons_of_pos (by simpa using pre_starts_key c0 n hc0)]
      simp only [List.length_cons]
      have htail : rest.filter
          (fun c' => listStarts (i64ToString n ++ [und]) (keyFor c')) = [] := by
        apply List.filter_eq_nil_iff.mpr
        intro c' hc'
        obtain ⟨n', hc'id⟩ := hall c' (by simp [hc'])
        have hrange' := hr c' (by simp [hc']) n' hc'id
        have hne : n ≠ n' := by
          intro he
          apply hnodup.1
          rw [he]
          exact List.mem_filterMap.mpr ⟨c', hc', hc'id⟩
        simp [pre_starts_key_ne c' n n' hc'id hne hrange0.1 hrange0.2
          hrange'.1 hrange'.2]
      rw [htail]
      rfl
    · -- n in the tail: the head does not match
      have hne : n ≠ n0 := by
        intro he
        rw [he] at hn2
        exact hnodup.1 hn2
      obtain ⟨c1, hc1, hc1id⟩ := List.mem_filterMap.mp hn2
      have hrangeN := hr c1 (by simp [hc1]) n hc1id
      have hfalse := pre_starts_key_ne c0 n n0 hc0 hne hrangeN.1 hrangeN.2
        hrange0.1 hrange0.2
      rw [List.filter_cons_of_neg (by simpa using hfalse)]
      exact ih n hn2 (fun c' hc' => hall c' (by simp [hc']))
        (fun c' hc' => hr c' (by simp [hc'])) hnodup.2

theorem startLoop_clean_ids (env : StartEnv) (protocol : List Char) :
    ∀ (cfgs : List Config) (i : Nat) (st st' : SysState)
      (rs : List CustomResponse) (ks : List (List Char)),
      startLoop env protocol cfgs i st = some (st', rs, [], ks) →
      ∀ c ∈ cfgs, ∃ n, c.id = some n := by
  intro cfgs
  induction cfgs with
  | nil => intro i st st' rs ks _ c hc; cases hc
  | cons c0 rest ih =>
    intro i st st' rs ks h c hc
    simp only [startLoop] at h
    cases hstep : startStep env protocol c0 i st with
    | none => simp [hstep] at h
    | some r =>
      obtain ⟨st1, rs0, es0, ks0⟩ := r
      simp only [hstep] at h
      cases hloop : startLoop env protocol rest (i + 1) st1 with
      | none => simp [hloop] at h
      | some r2 =>
        obtain ⟨st2, rs2, es2, ks2⟩ := r2
        simp only [hloop] at h
        simp only [Option.some.injEq, Prod.mk.injEq] at h
        obtain ⟨rfl, hrs, hes, hks⟩ := h
        have hes0 : es0 = [] ∧ es2 = [] := List.append_eq_nil.mp hes
        rcases List.mem_cons.mp hc with rfl | hc2
        · obtain ⟨n, hid, _⟩ :=
            startStep_clean env protocol c i st st1 rs0 ks0 (hes0.1 ▸ hstep)
          exact ⟨n, hid⟩
        · exact ih (i + 1) st1 st2 rs2 ks2 (hes0.2 ▸ hloop) c hc2

theorem keys_nodup : ∀ (cfgs : List Config),
    (∀ c ∈ cfgs, ∃ n, c.id = some n) →
    (∀ c ∈ cfgs, ∀ n, c.id = some n → -(2 ^ 63) ≤ n ∧ n < 2 ^ 63) →
    (cfgs.filterMap Config.id).Nodup →
    (cfgs.map keyFor).Nodup := by
  intro cfgs
  induction cfgs with
  | nil => intro _ _ _; simp
  | cons c0 rest ih =>
    intro hall hr hnodup
    obtain ⟨n0, hc0⟩ := hall c0 (by simp)
    have hfm : (c0 :: rest).filterMap Config.id = n0 :: rest.filterMap Config.id := by
      simp [List.filterMap_cons, hc0]
    rw [hfm] at hnodup
    simp only [List.nodup_cons] at hnodup
    simp only [List.map_cons, List.nodup_cons]
    constructor
    · intro hmem
      obtain ⟨c', hc', hkey⟩ := List.mem_map.mp hmem
      obtain ⟨n', hc'id⟩ := hall c' (by simp [hc'])
      rw [keyFor_eq c' n' hc'id, keyFor_eq c0 n0 hc0] at hkey
      obtain ⟨heq, _⟩ := und_append_inj (i64ToString_noUnd (n := n'))
        (i64ToString_noUnd (n := n0)) hkey
      have hrange' := hr c' (by simp [hc']) n' hc'id
      have hrange0 := hr c0 (by simp) n0 hc0
      have : n' = n0 := i64ToString_inj hrange'.1 hrange'.2 hrange0.1 hrange0.2 heq
      apply hnodup.1
      rw [← this]
      exact List.mem_filterMap.mpr ⟨c', hc', hc'id⟩
    · exact ih (fun c' hc' => hall c' (by simp [hc']))
        (fun c' hc' => hr c' (by simp [hc'])) hnodup.2

theorem storeLookup_set_ne (i j : Int) (b : Bool) (s : List (Int × Bool))
    (h : ¬ j = i) : storeLookup (storeSet j b s) i = storeLookup s i := by
  unfold storeLookup storeSet
  rw [List.find?_cons_of_neg _ (by simp; omega)]
  rw [find?_filter_of_imp]
  intro a ha
  simp at ha ⊢
  rw [ha]
  omega

theorem storeLookup_foldl_true_pres :
    ∀ (cs : List Config) (s : List (Int × Bool)) (i : Int),
      storeLookup s i = some true →
      storeLookup (cs.foldl (fun s c => storeSet (c.id.getD 0) true s) s) i =
        some true := by
  intro cs
  induction cs with
  | nil => intro s i h; exact h
  | cons c0 rest ih =>
    intro s i h
    rw [List.foldl_cons]
    by_cases hc : c0.id.getD 0 = i
    · exact ih _ i (by rw [hc]; exact storeLookup_set i true s)
    · exact ih _ i (by rw [storeLookup_set_ne i _ true s hc]; exact h)

theorem storeLookup_foldl_true_mem :
    ∀ (cs : List Config) (s : List (Int × Bool)) (c : Config), c ∈ cs →
      storeLookup (cs.foldl (fun s c => storeSet (c.id.getD 0) true s) s)
        (c.id.getD 0) = some true := by
  intro cs
  induction cs with
  | nil => intro s c hc; cases hc
  | cons c0 rest ih =>
    intro s c hc
    rw [List.foldl_cons]
    rcases List.mem_cons.mp hc with rfl | hc2
    · exact storeLookup_foldl_true_pres rest _ _ (storeLookup_set _ true s)
    · exact ih _ c hc2

/-- Claim C3: for configs with in-range, pairwise-distinct ids, starting
from a registry holding no key with any of their id prefixes, if
`start_port_forward` returns success then for every input config the final
registry holds exactly one entry whose key has prefix `"<id>_"`, and the
state store records `is_running = true` for the id. -/
theorem claim_c3 (env : StartEnv) (cfgs : List Config) (protocol : List Char)
    (st st' : SysState) (rs : List CustomResponse) (errs : List (List Char))
    (hrange : ∀ c ∈ cfgs, ∀ n, c.id = some n → -(2 ^ 63) ≤ n ∧ n < 2 ^ 63)
    (hnodup : (cfgs.filterMap Config.id).Nodup)
    (hfresh : ∀ c ∈ cfgs, ∀ n, c.id = some n →
      ∀ kv ∈ st.registry, listStarts (i64ToString n ++ [und]) kv.1 = false)
    (hrun : start_port_forward env cfgs protocol st = some (.ok rs, st', errs)) :
    ∀ c ∈ cfgs, ∀ n, c.id = some n →
      countPre st'.registry (i64ToString n ++ [und]) = 1 ∧
      storeLookup st'.store n = some true := by
  cases hl : startLoop env protocol cfgs 0 st with
  | none => simp [start_port_forward, hl] at hrun
  | some r =>
    obtain ⟨stL, rsL, errsL, ks⟩ := r
    simp only [start_port_forward, hl, Option.map_some'] at hrun
    by_cases he : errsL = []
    · subst he
      rw [if_pos rfl] at hrun
      simp only [Option.some.injEq, Prod.mk.injEq, Except.ok.injEq] at hrun
      obtain ⟨hrs, hst, herrs⟩ := hrun
      subst hst
      have hall := startLoop_clean_ids env protocol cfgs 0 st stL rsL ks hl
      have hkeysnodup := keys_nodup cfgs hall hrange hnodup
      have hfreshK : ∀ c ∈ cfgs, keyFor c ∉ st.registry.map Prod.fst := by
        intro c hc hmem
        obtain ⟨n, hid⟩ := hall c hc
        obtain ⟨kv, hkv, hkey⟩ := List.mem_map.mp hmem
        have h1 := hfresh c hc n hid kv hkv
        rw [hkey, pre_starts_key c n hid] at h1
        cases h1
      obtain ⟨hregL, hstoreL, _⟩ :=
        startLoop_clean env protocol cfgs 0 st stL rsL ks hl hfreshK hkeysnodup
      intro c hc n hid
      constructor
      · rw [hregL, countPre_append, countPre_reverse, countPre_buildPairs]
        have h0 : countPre st.registry (i64ToString n ++ [und]) = 0 := by
          simp only [countPre]
          rw [List.filter_eq_nil_iff.mpr]
          · rfl
          · intro kv hkv
            simp [hfresh c hc n hid kv hkv]
        rw [h0, filter_pre_length_one cfgs n
          (List.mem_filterMap.mpr ⟨c, hc, hid⟩) hall hrange hnodup]
      · rw [hstoreL]
        have := storeLookup_foldl_true_mem cfgs st.store c hc
        rw [hid] at this
        exact this
    · simp [if_neg he] at hrun

/-- Environment for the C3 witness: both transports start successfully. -/
def c3wenv : StartEnv :=
  ⟨fun _ => .ok (), fun i => .ok (9000 + i), fun _ => true, fun _ => .ok ()⟩

/-- First config of the C3 witness batch. -/
def c3wa : Config :=
  { id := some 1
    service := some (str "a")
    remote_port := some 80
    protocol := str "tcp" }

/-- Second config of the C3 witness batch. -/
def c3wb : Config :=
  { id := some 2
    service := some (str "b")
    remote_port := some 81
    protocol := str "tcp" }

/-- Empty initial state for the C3 witness. -/
def c3wst : SysState := ⟨[], [], [], 0, []⟩

/-- Witness for claim C3 at the concrete two-config batch: each of the two
ids ends with exactly one matching registry key and a true store row. -/
theorem claim_c3_witness :
    countPre (⟨[(str "2_b", 1), (str "1_a", 0)], [], [(2, true), (1, true)],
      2, []⟩ : SysState).registry (i64ToString 1 ++ [und]) = 1 ∧
    storeLookup (⟨[(str "2_b", 1), (str "1_a", 0)], [],
      [(2, true), (1, true)], 2, []⟩ : SysState).store 1 = some true ∧
    countPre (⟨[(str "2_b", 1), (str "1_a", 0)], [], [(2, true), (1, true)],
      2, []⟩ : SysState).registry (i64ToString 2 ++ [und]) = 1 ∧
    storeLookup (⟨[(str "2_b", 1), (str "1_a", 0)], [],
      [(2, true), (1, true)], 2, []⟩ : SysState).store 2 = some true := by
  have H := claim_c3 c3wenv [c3wa, c3wb] (str "tcp") c3wst
    ⟨[(str "2_b", 1), (str "1_a", 0)], [], [(2, true), (1, true)], 2, []⟩
    [mkOkResp c3wa (str "tcp") (str "a") 9000,
     mkOkResp c3wb (str "tcp") (str "b") 9001] []
    (by
      intro c hc n hn
      rcases List.mem_cons.mp hc with rfl | hc2
      · simp [c3wa] at hn
        subst hn
        constructor <;> decide
      · rcases List.mem_cons.mp hc2 with rfl | hc3
        · simp [c3wb] at hn
          subst hn
          constructor <;> decide
        · cases hc3)
    (by decide)
    (by intro c hc n hn kv hkv; simp [c3wst] at hkv)
    rfl
  exact ⟨(H c3wa (by simp) 1 rfl).1, (H c3wa (by simp) 1 rfl).2,
    (H c3wb (by simp) 2 rfl).1, (H c3wb (by simp) 2 rfl).2⟩
